import Mathlib

/-!
Verification development for the land-tool reconciliation engine
(`src/services/transformer.ts`).

The TypeScript engine is shallowly embedded: spreadsheet row objects become
association lists from column name to `Option String` (a key bound to `none`
models a JavaScript property whose value is `undefined`; an absent key reads
the same way, exactly as in JavaScript where reading either yields
`undefined`).  All cell values arriving from the spreadsheet codec are strings
(the reader is invoked with `raw: false`, `defval: ''`), so row values are
modelled as strings.  JavaScript numbers are modelled as exact rationals via
the unnormalised fraction type `JNum` (interpreted into `ℚ` in theorem
statements); the quantities the engine computes (quota fractions, owner
counts) are exactly representable, so float rounding is not modelled.
String operations are modelled on ASCII data (the `\s`, `\d`, `\w` regex
classes become the corresponding ASCII character predicates, and
`toUpperCase`/`toLowerCase` act on ASCII letters); `parseFloat`/`Number`
are modelled for finite decimal literals (the `Infinity` literal is outside
the model's scope, no input sheet contains it).
-/

namespace LandTool

set_option maxRecDepth 100000

/-! ### JavaScript value and string primitives -/

/-- Truthiness of a (possibly `undefined`) string value: in JavaScript the
only falsy string is the empty string, and `undefined` is falsy. -/
def truthy (o : Option String) : Bool :=
  match o with
  | some s => s ≠ ""
  | none => false

/-- JavaScript `v || ''` for a string-or-`undefined` value. -/
def jsOrEmpty (o : Option String) : String := o.getD ""

/-- JavaScript `String(v)` for a string-or-`undefined` value:
`String(undefined)` is the literal text `"undefined"`. -/
def jsStr (o : Option String) : String :=
  match o with
  | some s => s
  | none => "undefined"

/-- ASCII lowercasing, modelling JavaScript `toLowerCase` on the data the
engine handles. -/
def toLowerS (s : String) : String := String.mk (s.data.map Char.toLower)

/-- ASCII uppercasing, modelling JavaScript `toUpperCase`. -/
def toUpperS (s : String) : String := String.mk (s.data.map Char.toUpper)

/-- Strip leading whitespace from a character list. -/
def dropWs (l : List Char) : List Char := l.dropWhile Char.isWhitespace

/-- JavaScript `trim()` on the character-list level. -/
def trimL (l : List Char) : List Char := ((dropWs l).reverse.dropWhile Char.isWhitespace).reverse

/-- JavaScript `trim()`. -/
def jsTrimS (s : String) : String := String.mk (trimL s.data)

/-- JavaScript `substring(0, n)` (the engine only truncates from the left). -/
def takeStr (s : String) (n : ℕ) : String := String.mk (s.data.take n)

/-- `replace(/\s+/g, '')`: remove every whitespace character. -/
def stripWsS (s : String) : String := String.mk (s.data.filter (fun c => !c.isWhitespace))

/-- Left-pad with a character to a target length, modelling `padStart`. -/
def padStartStr (s : String) (n : ℕ) (c : Char) : String :=
  if n ≤ s.length then s else String.mk (List.replicate (n - s.length) c ++ s.data)

/-- Replace each maximal run of characters satisfying `p` by the single
character `rep`; `inRun` records whether the previous character was in a run.
This models `replace(/X+/g, rep)` for a character class `X`. -/
def collapseRunsAux (p : Char → Bool) (rep : Char) (inRun : Bool) : List Char → List Char
  | [] => []
  | c :: t =>
    if p c then
      if inRun then collapseRunsAux p rep true t
      else rep :: collapseRunsAux p rep true t
    else c :: collapseRunsAux p rep false t

/-- `replace(/X+/g, rep)` for a character class given by `p`. -/
def collapseRuns (p : Char → Bool) (rep : Char) (l : List Char) : List Char :=
  collapseRunsAux p rep false l

/-- Boolean prefix test on character lists. -/
def isPrefL : List Char → List Char → Bool
  | [], _ => true
  | _ :: _, [] => false
  | a :: s, b :: t => a = b && isPrefL s t

/-- Boolean infix test on character lists; `containsSub hay sub` models the
JavaScript `hay.includes(sub)` (note `includes('')` is `true`). -/
def containsSub : List Char → List Char → Bool
  | hay, sub =>
    match hay with
    | [] => isPrefL sub []
    | c :: t => isPrefL sub (c :: t) || containsSub t sub

/-- `split(sep)` for a single-character separator, as JavaScript `split`:
`"".split(sep)` is `[""]`, separators at the ends produce empty pieces. -/
def splitChar (sep : Char) : List Char → List (List Char)
  | [] => [[]]
  | c :: t =>
    let r := splitChar sep t
    if c = sep then [] :: r
    else
      match r with
      | h :: t2 => (c :: h) :: t2
      | [] => [[c]]

/-- `replace(a, b)` with plain-string (single-character) arguments: JavaScript
replaces only the first occurrence. -/
def replaceFirstChar (a b : Char) : List Char → List Char
  | [] => []
  | c :: t => if c = a then b :: t else c :: replaceFirstChar a b t

/-- `join(sep)`, as JavaScript `Array.prototype.join`. -/
def joinSep (sep : String) : List String → String
  | [] => ""
  | h :: t => t.foldl (fun acc x => acc ++ sep ++ x) h

/-! ### JavaScript numbers as exact unnormalised fractions

Mathlib's `ℚ` operations normalise through `Nat.gcd`, which the kernel cannot
evaluate, so the engine computes with raw numerator/denominator pairs and the
theorems interpret them into `ℚ` via `JNum.toQ`.  All denominators built by
the parsers below are positive, so the order test `jGt` agrees with the
rational order. -/

structure JNum where
  num : Int
  den : Int
deriving Repr, DecidableEq

/-- Interpretation of a `JNum` as a rational number. -/
def JNum.toQ (a : JNum) : ℚ := (a.num : ℚ) / (a.den : ℚ)

def jofNat (n : ℕ) : JNum := ⟨n, 1⟩

def jAdd (a b : JNum) : JNum := ⟨a.num * b.den + b.num * a.den, a.den * b.den⟩

def jNeg (a : JNum) : JNum := ⟨-a.num, a.den⟩

/-- Exact division `a / b`, with the sign moved to the numerator so that
denominators stay nonnegative. -/
def jDiv (a b : JNum) : JNum :=
  let n := a.num * b.den
  let d := a.den * b.num
  if d < 0 then ⟨-n, -d⟩ else ⟨n, d⟩

/-- Test for the value zero (valid for the nonzero denominators the parsers
produce). -/
def jIsZero (a : JNum) : Bool := a.num = 0

/-- Strict order test, valid when both denominators are positive. -/
def jGt (a b : JNum) : Bool := b.num * a.den < a.num * b.den

def pow10 : ℕ → Int
  | 0 => 1
  | n + 1 => 10 * pow10 n

/-- Multiply by `10^e` for a signed exponent `e`. -/
def jTimesPow10 (a : JNum) (e : Int) : JNum :=
  if 0 ≤ e then ⟨a.num * pow10 e.toNat, a.den⟩ else ⟨a.num, a.den * pow10 (-e).toNat⟩

/-- Numeric value of a list of decimal digits (most significant first). -/
def digitsVal (l : List Char) : ℕ := l.foldl (fun acc c => 10 * acc + (c.toNat - 48)) 0

/-- Decimal digits of `n`, most significant first; the fuel argument makes the
recursion structural (fuel `n + 1` always suffices since `n / 10 < n`). -/
def natReprAux : ℕ → ℕ → List Char
  | 0, _ => []
  | fuel + 1, n =>
    if n < 10 then [Char.ofNat (48 + n)]
    else natReprAux fuel (n / 10) ++ [Char.ofNat (48 + n % 10)]

/-- Decimal representation of a natural number, as JavaScript `String(n)`. -/
def natReprL (n : ℕ) : List Char := natReprAux (n + 1) n

/-- JavaScript `String(i)` for an integral number. -/
def intReprS (i : Int) : String :=
  if i < 0 then String.mk ('-' :: natReprL i.natAbs) else String.mk (natReprL i.toNat)

/-- Parse an optional exponent part (`e`/`E`, optional sign, digits) at the
head of the input; an ill-formed exponent is not consumed, as in
`parseFloat`. -/
def parseExpPart (cs : List Char) : Int :=
  match cs with
  | c :: t =>
    if c = 'e' ∨ c = 'E' then
      match t with
      | '-' :: u =>
        let ds := u.takeWhile Char.isDigit
        if ds = [] then 0 else -(digitsVal ds : Int)
      | '+' :: u =>
        let ds := u.takeWhile Char.isDigit
        if ds = [] then 0 else (digitsVal ds : Int)
      | _ =>
        let ds := t.takeWhile Char.isDigit
        if ds = [] then 0 else (digitsVal ds : Int)
    else 0
  | [] => 0

/-- Parse an unsigned decimal literal (`digits`, `digits.digits`, `.digits`,
optional exponent) at the head of the input, ignoring trailing garbage;
`none` models `NaN`. -/
def parseDecCore (cs : List Char) : Option JNum :=
  let ip := cs.takeWhile Char.isDigit
  let r1 := cs.dropWhile Char.isDigit
  let fp :=
    match r1 with
    | '.' :: t => t.takeWhile Char.isDigit
    | _ => []
  let r2 :=
    match r1 with
    | '.' :: t => t.dropWhile Char.isDigit
    | _ => r1
  if ip = [] ∧ fp = [] then none
  else
    let base : JNum := jAdd ⟨digitsVal ip, 1⟩ ⟨digitsVal fp, pow10 fp.length⟩
    some (jTimesPow10 base (parseExpPart r2))

/-- JavaScript `parseFloat`: skip leading whitespace, optional sign, then the
longest decimal-literal prefix; `none` models `NaN`. -/
def jsParseFloatL (cs : List Char) : Option JNum :=
  match dropWs cs with
  | [] => parseDecCore []
  | c :: t =>
    if c = '-' then (parseDecCore t).map jNeg
    else if c = '+' then parseDecCore t
    else parseDecCore (c :: t)

/-- Hexadecimal-digit test (`[0-9a-fA-F]`). -/
def isHexDigitCh (c : Char) : Bool :=
  c.isDigit || (('a' ≤ c && c ≤ 'f') || ('A' ≤ c && c ≤ 'F'))

/-- Value of a list of hexadecimal digits. -/
def hexVal (l : List Char) : ℕ :=
  l.foldl
    (fun acc c =>
      16 * acc + (if c.isDigit then c.toNat - 48 else c.toLower.toNat - 87)) 0

/-- Unsigned part of `parseInt` with no radix argument: a `0x`/`0X` prefix
selects hexadecimal, otherwise the longest run of decimal digits. -/
def parseIntCore (cs : List Char) : Option Int :=
  if isPrefL ['0', 'x'] cs || isPrefL ['0', 'X'] cs then
    let ds := (cs.drop 2).takeWhile isHexDigitCh
    if ds = [] then none else some (hexVal ds : Int)
  else
    let ds := cs.takeWhile Char.isDigit
    if ds = [] then none else some (digitsVal ds : Int)

/-- JavaScript `parseInt(s)` (no radix argument); `none` models `NaN`. -/
def jsParseIntL (cs : List Char) : Option Int :=
  match dropWs cs with
  | [] => parseIntCore []
  | c :: t =>
    if c = '-' then (parseIntCore t).map (fun n => -n)
    else if c = '+' then parseIntCore t
    else parseIntCore (c :: t)

/-- JavaScript `Number(s)` for a string: the trimmed empty string is `0`, and
otherwise the whole trimmed string must be a decimal or hexadecimal literal;
`none` models `NaN`. -/
def jsNumberL (cs : List Char) : Option JNum :=
  let t := trimL cs
  if t = [] then some ⟨0, 1⟩
  else
    let core := fun (u : List Char) =>
      match u with
      | '0' :: 'x' :: v =>
        let ds := v.takeWhile isHexDigitCh
        if ds ≠ [] ∧ v.dropWhile isHexDigitCh = [] then some (⟨hexVal ds, 1⟩ : JNum) else none
      | '0' :: 'X' :: v =>
        let ds := v.takeWhile isHexDigitCh
        if ds ≠ [] ∧ v.dropWhile isHexDigitCh = [] then some (⟨hexVal ds, 1⟩ : JNum) else none
      | _ =>
        let ip := u.takeWhile Char.isDigit
        let r1 := u.dropWhile Char.isDigit
        let fp :=
          match r1 with
          | '.' :: w => w.takeWhile Char.isDigit
          | _ => []
        let r2 :=
          match r1 with
          | '.' :: w => w.dropWhile Char.isDigit
          | _ => r1
        let (expOk, expv) :=
          match r2 with
          | c :: w =>
            if c = 'e' ∨ c = 'E' then
              match w with
              | '-' :: v2 =>
                let ds := v2.takeWhile Char.isDigit
                (decide (ds ≠ []) && decide (v2.dropWhile Char.isDigit = []), -(digitsVal ds : Int))
              | '+' :: v2 =>
                let ds := v2.takeWhile Char.isDigit
                (decide (ds ≠ []) && decide (v2.dropWhile Char.isDigit = []), (digitsVal ds : Int))
              | v2 =>
                let ds := v2.takeWhile Char.isDigit
                (decide (ds ≠ []) && decide (v2.dropWhile Char.isDigit = []), (digitsVal ds : Int))
            else (false, (0 : Int))
          | [] => (true, (0 : Int))
        if (ip = [] ∧ fp = []) ∨ expOk = false then none
        else some (jTimesPow10 (jAdd ⟨digitsVal ip, 1⟩ ⟨digitsVal fp, pow10 fp.length⟩) expv)
    match t with
    | '-' :: u => (core u).map jNeg
    | '+' :: u => core u
    | u => core u

/-- `Number(s) > bound`, the comparison used by the stage filters; a `NaN`
compares false. -/
def jsNumGtB (s : String) (bound : JNum) : Bool :=
  match jsNumberL s.data with
  | some q => jGt q bound
  | none => false

/-! ### `parseQuota` (transformer.ts lines 62–81) -/

/-- `parseQuota`: `null`/`undefined` parse to 0; a string containing `/` that
splits into exactly two float-parseable parts with nonzero denominator is a
fraction; everything else goes through `parseFloat` with the first comma
replaced by a dot, defaulting to 0 on `NaN`. -/
def parseQuota (quotaStr : Option String) : JNum :=
  match quotaStr with
  | none => jofNat 0
  | some q =>
    let s := trimL q.data
    let fracVal : Option JNum :=
      if s.contains '/' then
        match splitChar '/' s with
        | [a, b] =>
          match jsParseFloatL a, jsParseFloatL b with
          | some num, some den => if ¬ jIsZero den then some (jDiv num den) else none
          | _, _ => none
        | _ => none
      else none
    match fracVal with
    | some v => v
    | none =>
      match jsParseFloatL (replaceFirstChar ',' '.' s) with
      | some f => f
      | none => jofNat 0

/-! ### Row objects

A spreadsheet row object is an association list from column name to value.
JavaScript object semantics: reading an absent key and reading a key whose
value is `undefined` are indistinguishable (both give `undefined`, here
`none`); the `in` operator and `Object.keys` see a key even when its value is
`undefined`. -/

abbrev Row := List (String × Option String)

/-- Read a property (`row[k]`); `none` is JavaScript `undefined`.  The first
binding of a key wins, as in a JavaScript object (which cannot carry
duplicate keys). -/
def val : Row → String → Option String
  | [], _ => none
  | p :: t, k => if p.1 = k then p.2 else val t k

/-- The JavaScript `k in row` test. -/
def hasKey : Row → String → Bool
  | [], _ => false
  | p :: t, k => p.1 == k || hasKey t k

/-- `Object.keys(row)`, in insertion order. -/
def rowKeys (r : Row) : List String := r.map (fun p => p.1)

/-- Property assignment `row[k] = v`: overwrite in place when present,
append otherwise. -/
def setVal (r : Row) (k : String) (v : Option String) : Row :=
  if hasKey r k then r.map (fun p => if p.1 == k then (k, v) else p) else r ++ [(k, v)]

/-! ### Small helpers of the transformer (lines 21–91) -/

/-- `truncate` (transformer.ts lines 43–48): a falsy argument gives the empty
string, otherwise the string is cut to `maxLength` characters. -/
def truncate (str : String) (maxLength : ℕ) : String :=
  if str = "" then "" else if str.length ≤ maxLength then str else takeStr str maxLength

/-- Character class `[\r\n\t]`. -/
def isRNT (c : Char) : Bool := c = '\r' || c = '\n' || c = '\t'

/-- `sanitize` (lines 51–56): `null`/`undefined` give `''`; otherwise replace
runs of `[\r\n\t]` by a space, collapse whitespace runs to single spaces and
trim. -/
def sanitize (o : Option String) : String :=
  match o with
  | none => ""
  | some s =>
    String.mk (trimL (collapseRuns Char.isWhitespace ' ' (collapseRuns isRNT ' ' s.data)))

/-- `normalizeMuni` (lines 58–60): `String(m || '').trim().toLowerCase()`. -/
def normalizeMuni (m : Option String) : List Char :=
  (trimL (jsOrEmpty m).data).map Char.toLower

/-! ### `cleanOwnerName` (lines 21–41)

The two global regex replacements are embedded as deterministic scanners;
each regex is a sequence of character-class tokens separated by literal
characters that no class contains, so maximal-munch scanning coincides with
the backtracking regex engine on them. -/

/-- Word character `\w` = `[A-Za-z0-9_]`. -/
def isWordChar (c : Char) : Bool := c.isAlphanum || c = '_'

/-- Consume one literal character. -/
def eatChar (a : Char) (cs : List Char) : Option (List Char) :=
  match cs with
  | c :: t => if c = a then some t else none
  | [] => none

/-- Consume a literal string case-insensitively (regex `i` flag). -/
def eatCI : List Char → List Char → Option (List Char)
  | [], cs => some cs
  | _ :: _, [] => none
  | p :: ps, c :: t => if c.toLower = p.toLower then eatCI ps t else none

/-- Consume one-or-more characters of a class, maximal munch (`X+`). -/
def eatMany1 (p : Char → Bool) (cs : List Char) : Option (List Char) :=
  match cs with
  | c :: t => if p c then some (t.dropWhile p) else none
  | [] => none

/-- Consume exactly `n` characters of a class (`X{n}`). -/
def eatExact : ℕ → (Char → Bool) → List Char → Option (List Char)
  | 0, _, cs => some cs
  | n + 1, p, c :: t => if p c then eatExact n p t else none
  | _ + 1, _, [] => none

/-- Match `/Unknown\s+[A-Z]{2}-[\w\d]+-[A-Z0-9]+-\d{4}-\d{5}/i` at the head
of the input, returning the remainder after the match. -/
def matchUnknownAt (cs : List Char) : Option (List Char) := do
  let r ← eatCI "Unknown".data cs
  let r ← eatMany1 Char.isWhitespace r
  let r ← eatExact 2 Char.isAlpha r
  let r ← eatChar '-' r
  let r ← eatMany1 isWordChar r
  let r ← eatChar '-' r
  let r ← eatMany1 Char.isAlphanum r
  let r ← eatChar '-' r
  let r ← eatExact 4 Char.isDigit r
  let r ← eatChar '-' r
  let r ← eatExact 5 Char.isDigit r
  pure r

/-- Match the literal `Timeout-Pending` case-insensitively. -/
def matchTimeoutAt (cs : List Char) : Option (List Char) :=
  eatCI "Timeout-Pending".data cs

/-- Global regex deletion: scan left to right, removing every (leftmost,
non-overlapping) match found by `m`.  Matches consume at least one character
here, so fuel equal to the input length suffices. -/
def scanRemove (m : List Char → Option (List Char)) : ℕ → List Char → List Char
  | 0, cs => cs
  | _ + 1, [] => []
  | fuel + 1, c :: t =>
    match m (c :: t) with
    | some rest => scanRemove m fuel rest
    | none => c :: scanRemove m fuel t

/-- Match `/\s+nat[oa](?:\/a)?\s+a\s+/i` at the head of the input. -/
def birthClauseAt (cs : List Char) : Bool :=
  (do
    let r ← eatMany1 Char.isWhitespace cs
    let r ← eatCI "nat".data r
    let r ←
      match r with
      | c :: t => if c.toLower = 'o' ∨ c.toLower = 'a' then some t else none
      | [] => none
    let r :=
      match r with
      | '/' :: c :: t => if c.toLower = 'a' then t else '/' :: c :: t
      | u => u
    let r ← eatMany1 Char.isWhitespace r
    let r ←
      match r with
      | c :: t => if c.toLower = 'a' then some t else none
      | [] => none
    let r ← eatMany1 Char.isWhitespace r
    pure r).isSome

/-- `split(/\s+nat[oa](?:\/a)?\s+a\s+/i)[0]`: the part before the first
birth-clause match. -/
def splitBirthAux : ℕ → List Char → List Char
  | 0, cs => cs
  | _ + 1, [] => []
  | fuel + 1, c :: t => if birthClauseAt (c :: t) then [] else c :: splitBirthAux fuel t

/-- `cleanOwnerName` (lines 21–41): non-strings give `''`; otherwise remove
generated `Unknown <id>` fragments and `Timeout-Pending` markers, cut at a
birth clause and at a semicolon, then collapse whitespace and trim. -/
def cleanOwnerName (name : Option String) : String :=
  match name with
  | none => ""
  | some s0 =>
    let s1 := scanRemove matchUnknownAt s0.data.length s0.data
    let s2 := scanRemove matchTimeoutAt s1.length s1
    let s3 := splitBirthAux s2.length s2
    let s4 := s3.takeWhile (fun c => c ≠ ';')
    String.mk (trimL (collapseRuns Char.isWhitespace ' ' s4))

/-! ### Province reference data (lines 208–359) -/

structure ProvEntry where
  code : String
  region : String
  name : Option String
deriving Repr, DecidableEq

/-- The `ITALIAN_PROVINCES` master list: (name, code, region). -/
def italianProvinces : List (String × String × String) :=
  [("Agrigento", "AG", "Sicilia"),
   ("Alessandria", "AL", "Piemonte"),
   ("Ancona", "AN", "Marche"),
   ("Aosta", "AO", "Valle d\x27Aosta"),
   ("Arezzo", "AR", "Toscana"),
   ("Ascoli Piceno", "AP", "Marche"),
   ("Asti", "AT", "Piemonte"),
   ("Avellino", "AV", "Campania"),
   ("Bari", "BA", "Puglia"),
   ("Barletta-Andria-Trani", "BT", "Puglia"),
   ("Belluno", "BL", "Veneto"),
   ("Benevento", "BN", "Campania"),
   ("Bergamo", "BG", "Lombardia"),
   ("Biella", "BI", "Piemonte"),
   ("Bologna", "BO", "Emilia-Romagna"),
   ("Bolzano", "BZ", "Trentino-Alto Adige"),
   ("Brescia", "BS", "Lombardia"),
   ("Brindisi", "BR", "Puglia"),
   ("Cagliari", "CA", "Sardegna"),
   ("Caltanissetta", "CL", "Sicilia"),
   ("Campobasso", "CB", "Molise"),
   ("Carbonia-Iglesias", "CI", "Sardegna"),
   ("Caserta", "CE", "Campania"),
   ("Catania", "CT", "Sicilia"),
   ("Catanzaro", "CZ", "Calabria"),
   ("Chieti", "CH", "Abruzzo"),
   ("Como", "CO", "Lombardia"),
   ("Cosenza", "CS", "Calabria"),
   ("Cremona", "CR", "Lombardia"),
   ("Crotone", "KR", "Calabria"),
   ("Cuneo", "CN", "Piemonte"),
   ("Enna", "EN", "Sicilia"),
   ("Fermo", "FM", "Marche"),
   ("Ferrara", "FE", "Emilia-Romagna"),
   ("Firenze", "FI", "Toscana"),
   ("Foggia", "FG", "Puglia"),
   ("Forlì-Cesena", "FC", "Emilia-Romagna"),
   ("Frosinone", "FR", "Lazio"),
   ("Genova", "GE", "Liguria"),
   ("Gorizia", "GO", "Friuli-Venezia Giulia"),
   ("Grosseto", "GR", "Toscana"),
   ("Imperia", "IM", "Liguria"),
   ("Isernia", "IS", "Molise"),
   ("La Spezia", "SP", "Liguria"),
   ("L\x27Aquila", "AQ", "Abruzzo"),
   ("Latina", "LT", "Lazio"),
   ("Lecce", "LE", "Puglia"),
   ("Lecco", "LC", "Lombardia"),
   ("Livorno", "LI", "Toscana"),
   ("Lodi", "LO", "Lombardia"),
   ("Lucca", "LU", "Toscana"),
   ("Macerata", "MC", "Marche"),
   ("Mantova", "MN", "Lombardia"),
   ("Massa-Carrara", "MS", "Toscana"),
   ("Matera", "MT", "Basilicata"),
   ("Medio Campidano", "VS", "Sardegna"),
   ("Messina", "ME", "Sicilia"),
   ("Milano", "MI", "Lombardia"),
   ("Modena", "MO", "Emilia-Romagna"),
   ("Monza e della Brianza", "MB", "Lombardia"),
   ("Napoli", "NA", "Campania"),
   ("Novara", "NO", "Piemonte"),
   ("Nuoro", "NU", "Sardegna"),
   ("Ogliastra", "OG", "Sardegna"),
   ("Olbia-Tempio", "OT", "Sardegna"),
   ("Oristano", "OR", "Sardegna"),
   ("Padova", "PD", "Veneto"),
   ("Palermo", "PA", "Sicilia"),
   ("Parma", "PR", "Emilia-Romagna"),
   ("Pavia", "PV", "Lombardia"),
   ("Perugia", "PG", "Umbria"),
   ("Pesaro e Urbino", "PU", "Marche"),
   ("Pescara", "PE", "Abruzzo"),
   ("Piacenza", "PC", "Emilia-Romagna"),
   ("Pisa", "PI", "Toscana"),
   ("Pistoia", "PT", "Toscana"),
   ("Pordenone", "PN", "Friuli-Venezia Giulia"),
   ("Potenza", "PZ", "Basilicata"),
   ("Prato", "PO", "Toscana"),
   ("Ragusa", "RG", "Sicilia"),
   ("Ravenna", "RA", "Emilia-Romagna"),
   ("Reggio Calabria", "RC", "Calabria"),
   ("Reggio Emilia", "RE", "Emilia-Romagna"),
   ("Rieti", "RI", "Lazio"),
   ("Rimini", "RN", "Emilia-Romagna"),
   ("Roma", "RM", "Lazio"),
   ("Rovigo", "RO", "Veneto"),
   ("Salerno", "SA", "Campania"),
   ("Sassari", "SS", "Sardegna"),
   ("Savona", "SV", "Liguria"),
   ("Siena", "SI", "Toscana"),
   ("Siracusa", "SR", "Sicilia"),
   ("Sondrio", "SO", "Lombardia"),
   ("Taranto", "TA", "Puglia"),
   ("Teramo", "TE", "Abruzzo"),
   ("Terni", "TR", "Umbria"),
   ("Torino", "TO", "Piemonte"),
   ("Trapani", "TP", "Sicilia"),
   ("Trento", "TN", "Trentino-Alto Adige"),
   ("Treviso", "TV", "Veneto"),
   ("Trieste", "TS", "Friuli-Venezia Giulia"),
   ("Udine", "UD", "Friuli-Venezia Giulia"),
   ("Varese", "VA", "Lombardia"),
   ("Venezia", "VE", "Veneto"),
   ("Verbano-Cusio-Ossola", "VB", "Piemonte"),
   ("Vercelli", "VC", "Piemonte"),
   ("Verona", "VR", "Veneto"),
   ("Vibo Valentia", "VV", "Calabria"),
   ("Vicenza", "VI", "Veneto"),
   ("Viterbo", "VT", "Lazio")]

/-- The accented-vowel test of the map builder
(`name.includes('ì') || ... || name.includes('ù')`). -/
def hasAccentVowel (s : String) : Bool :=
  s.data.any (fun c => c = 'ì' || c = 'à' || c = 'è' || c = 'ò' || c = 'ù')

/-- NFD normalisation followed by combining-mark removal, restricted to the
accented vowels the province names contain. -/
def stripAccents (s : String) : String :=
  String.mk (s.data.map (fun c =>
    if c = 'ì' then 'i' else if c = 'à' then 'a' else if c = 'è' then 'e'
    else if c = 'ò' then 'o' else if c = 'ù' then 'u'
    else if c = 'Ì' then 'I' else if c = 'À' then 'A' else if c = 'È' then 'E'
    else if c = 'Ò' then 'O' else if c = 'Ù' then 'U' else c))

/-- The `PROVINCE_MAP` lookup table in insertion order.  The JavaScript
object has no duplicate keys (names, codes, accent-normalised names and the
manual aliases are pairwise distinct), so first-match lookup over this list
coincides with object indexing. -/
def provinceMapList : List (String × ProvEntry) :=
  (italianProvinces.foldl
    (fun acc p =>
      let entry : ProvEntry := ⟨p.2.1, p.2.2, some p.1⟩
      acc ++ [(toUpperS p.1, entry), (toUpperS p.2.1, entry)] ++
        (if hasAccentVowel p.1 then [(toUpperS (stripAccents p.1), entry)] else []))
    []) ++
  [("MONZA E BRIANZA", ⟨"MB", "Lombardia", some "Monza e della Brianza"⟩),
   ("CARBONIA IGLESIAS", ⟨"CI", "Sardegna", some "Carbonia-Iglesias"⟩),
   ("MEDIO-CAMPIDANO", ⟨"VS", "Sardegna", some "Medio Campidano"⟩),
   ("OLBIA TEMPIO", ⟨"OT", "Sardegna", some "Olbia-Tempio"⟩),
   ("PESARO URBINO", ⟨"PU", "Marche", some "Pesaro e Urbino"⟩),
   ("REGGIO NELL\x27EMILIA", ⟨"RE", "Emilia-Romagna", some "Reggio Emilia"⟩),
   ("BOLZANO/BOZEN", ⟨"BZ", "Trentino-Alto Adige", some "Bolzano"⟩),
   ("AOSTA/AOSTE", ⟨"AO", "Valle d\x27Aosta", some "Aosta"⟩)]

/-- `PROVINCE_MAP[key]`. -/
def provinceLookup (key : String) : Option ProvEntry :=
  (provinceMapList.find? (fun p => p.1 == key)).map (fun p => p.2)

/-- `getProvinceDetails` (lines 349–359).  The lookup key is
`String(input).toUpperCase().trim()`; on lookup failure the code is the key
itself when it has exactly 2 characters, otherwise its first 2 characters
uppercased, the region is blank and the name is the original input. -/
def getProvinceDetails (input : Option String) : ProvEntry :=
  let key := jsTrimS (toUpperS (jsStr input))
  match provinceLookup key with
  | some e => e
  | none =>
    if key.length = 2 then ⟨key, "", input⟩
    else ⟨toUpperS (takeStr key 2), "", input⟩

/-! ### `generateExternalId` (lines 361–374) -/

/-- `generateExternalId`: municipality is uppercased with whitespace removed,
an (effectively) empty section becomes the sentinel `X`, sheet and parcel are
zero-padded to 4 and 5 digits — through `parseInt` when numeric, as raw
strings otherwise. -/
def generateExternalId (provinceCode : String) (municipality sect sheet parcel : Option String) :
    String :=
  let mun := stripWsS (toUpperS (jsStr municipality))
  let secRaw := jsOrEmpty sect
  let sec := if jsTrimS secRaw ≠ "" then jsTrimS secRaw else "X"
  let sheetStr :=
    match jsParseIntL (jsStr sheet).data with
    | some n => padStartStr (intReprS n) 4 '0'
    | none => padStartStr (jsStr sheet) 4 '0'
  let parcelStr :=
    match jsParseIntL (jsStr parcel).data with
    | some n => padStartStr (intReprS n) 5 '0'
    | none => padStartStr (jsStr parcel) 5 '0'
  provinceCode ++ "-" ++ mun ++ "-" ++ sec ++ "-" ++ sheetStr ++ "-" ++ parcelStr

/-! ### `formatDecimalForCsv` and `mapToCsvRow` (lines 376–447) -/

/-- `formatDecimalForCsv`: `null`/`undefined`/`''` give `''`; otherwise the
first `.` becomes `,`. -/
def formatDecimalForCsv (o : Option String) : String :=
  match o with
  | none => ""
  | some s => if s = "" then "" else String.mk (replaceFirstChar '.' ',' s.data)

/-- `mapToCsvRow` (lines 383–447): build the CRM-shape output row for a
resolved record and a stage label. -/
def mapToCsvRow (row : Row) (status : String) : Row :=
  let provDetails := getProvinceDetails (val row "Province")
  let provinceCode := provDetails.code
  let region := provDetails.region
  let provinceName := if truthy provDetails.name then provDetails.name else val row "Province"
  let externalId :=
    generateExternalId provinceCode (val row "Municipality") (val row "Section")
      (val row "Sheet") (val row "Parcel")
  let nOwn := val row "Number of Owners"
  let numberOfOwners :=
    match nOwn with
    | some s => if s ≠ "" then s else ""
    | none => ""
  let hasVariousOwners :=
    match nOwn with
    | some s => if s ≠ "" && jsNumGtB s ⟨1, 1⟩ then "True" else "False"
    | none => "False"
  let firstName0 := sanitize (val row "Main Owner Name")
  let lastName0 := sanitize (val row "Main Owner Last Name")
  let fstLst :=
    if status = "Scouted" then ("", "Pending Owner")
    else if lastName0 = "" ∧ status ≠ "Contacted" then
      (firstName0, takeStr ("Unknown " ++ externalId) 80)
    else (firstName0, lastName0)
  [("Land External ID", some (sanitize (some externalId))),
   ("Lead Status", some status),
   ("Land Province", some (sanitize provinceName)),
   ("Land Region", some (sanitize (some region))),
   ("Municipality", some (sanitize (val row "Municipality"))),
   ("Sezione", some (sanitize (val row "Section"))),
   ("Foglio", some (sanitize (val row "Sheet"))),
   ("Particella", some (sanitize (val row "Parcel"))),
   ("Cadastral Area (Ha)", some (formatDecimalForCsv (val row "Cadastral Area (Ha)"))),
   ("Main Owner Name", some (truncate (sanitize (some fstLst.1)) 40)),
   ("Main Owner Last Name", some (truncate fstLst.2 80)),
   ("Email", some (sanitize (val row "Email"))),
   ("Fiscal Code", some (sanitize (val row "Fiscal Code"))),
   ("CP", some (sanitize (val row "CP"))),
   ("Has Various Owners", some hasVariousOwners),
   ("Number of Owners", some numberOfOwners),
   ("All Owners", some (truncate (sanitize (val row "All Owners")) 255))]

/-! ### Schema validation (lines 118–203) -/

structure ValidationResult where
  isValid : Bool
  errors : List String
deriving Repr, DecidableEq

/-- A mapping from sheet name to list of rows (one ingested workbook). -/
abbrev SheetMap := List (String × List Row)

/-- `jsonData[name]`. -/
def getSheet (d : SheetMap) (k : String) : Option (List Row) :=
  (d.find? (fun p => p.1 == k)).map (fun p => p.2)

/-- `jsonData[name] || []`. -/
def getSheetD (d : SheetMap) (k : String) : List Row := (getSheet d k).getD []

/-- `Object.keys(jsonData).join(', ')` with the `|| 'none'` default used in
the error messages. -/
def foundSheetsMsg (d : SheetMap) : String :=
  let j := joinSep ", " (d.map (fun p => p.1))
  if j = "" then "none" else j

/-- `validateInputFile` (lines 118–138). -/
def validateInputFile (jsonData : SheetMap) : ValidationResult :=
  let errors :=
    match getSheet jsonData "Hoja1", getSheet jsonData "Sheet1" with
    | none, none =>
      ["Input file is missing required sheet: \x27Hoja1\x27 or \x27Sheet1\x27. Found sheets: " ++
        foundSheetsMsg jsonData]
    | h, s =>
      let sheet := match h with | some rows => rows | none => s.getD []
      if sheet.length = 0 then ["Input file sheet is empty."]
      else
        let requiredCols :=
          ["provincia", "comune", "foglio", "particella", "Area", "Sezione", "CP", "Parcel_ID"]
        let firstRow := sheet.headD []
        let missingCols := requiredCols.filter (fun c => !hasKey firstRow c)
        if missingCols.length > 0 then
          ["Input file is missing columns: " ++ joinSep ", " missingCols ++
            ". Found columns: " ++ joinSep ", " (rowKeys firstRow)]
        else []
  ⟨errors.length = 0, errors⟩

/-- Column check for one Results sheet: when the sheet is present, every
required column must appear in the first row (an empty sheet checks against
an empty first row). -/
def resultsSheetColErrors (jsonData : SheetMap) (sheetName : String) (requiredCols : List String) :
    List String :=
  match getSheet jsonData sheetName with
  | none => []
  | some rows =>
    let firstRow := rows.headD []
    let missingCols := requiredCols.filter (fun c => !hasKey firstRow c)
    if missingCols.length > 0 then
      ["Sheet \x27" ++ sheetName ++ "\x27 is missing columns: " ++ joinSep ", " missingCols ++
        ". Found: " ++ joinSep ", " (rowKeys firstRow)]
    else []

/-- Alias check for the `Final_Mailing_By_Parcel` sheet (lines 184–200):
case-insensitive alias lists per logical field. -/
def mailingSheetErrors (jsonData : SheetMap) : List String :=
  match getSheet jsonData "Final_Mailing_By_Parcel" with
  | none => []
  | some rows =>
    let firstRow := rows.headD []
    let cols := (rowKeys firstRow).map toLowerS
    let hasPid := cols.any (fun c => c == "parcel_id" || c == "elenco_parcel_id")
    let hasName := cols.any (fun c => c == "full_name" || c == "destinatario" || c == "nominativo")
    let hasCf := cols.any (fun c => c == "cf" || c == "fiscal_code" || c == "codice_fiscale")
    let errorsList :=
      (if !hasPid then ["Parcel_ID"] else []) ++
      (if !hasName then ["Full_Name"] else []) ++
      (if !hasCf then ["cf"] else [])
    if errorsList.length > 0 then
      ["Sheet \x27Final_Mailing_By_Parcel\x27 is missing required columns (or aliases): " ++
        joinSep ", " errorsList ++ ". Found: " ++ joinSep ", " (rowKeys firstRow)]
    else []

/-- `validateResultsFile` (lines 140–203). -/
def validateResultsFile (jsonData : SheetMap) : ValidationResult :=
  let requiredSheets :=
    ["All_Raw_Data", "Owners_Normalized", "All_Companies_Found", "Final_Mailing_By_Parcel"]
  let missingSheets := requiredSheets.filter (fun s => !(getSheet jsonData s).isSome)
  let e1 :=
    if missingSheets.length > 0 then
      ["Results file is missing required sheets: " ++ joinSep ", " missingSheets ++
        ". Found sheets: " ++ foundSheetsMsg jsonData]
    else []
  let e2 :=
    resultsSheetColErrors jsonData "All_Raw_Data"
      ["Parcel_ID", "cf_owner", "denominazione_owner", "nome", "cognome"]
  let e3 :=
    resultsSheetColErrors jsonData "Owners_Normalized" ["Parcel_ID", "owner_name", "owner_cf", "quota"]
  let e4 := resultsSheetColErrors jsonData "All_Companies_Found" ["cf", "pec_email"]
  let e5 := mailingSheetErrors jsonData
  let errors := e1 ++ e2 ++ e3 ++ e4 ++ e5
  ⟨errors.length = 0, errors⟩

/-! ### Key and identity resolution inside `runProcess` (lines 452–519) -/

/-- The field mapping applied to every raw input row (lines 466–472):
`Sheet`/`Parcel` keep only the part of `foglio`/`particella` before the first
dot. -/
def mapBaseRow (r : Row) : Row :=
  let r := setVal r "Province" (val r "provincia")
  let r := setVal r "Municipality" (val r "comune")
  let r := setVal r "Sheet" (some (String.mk ((jsStr (val r "foglio")).data.takeWhile (fun c => c ≠ '.'))))
  let r := setVal r "Parcel" (some (String.mk ((jsStr (val r "particella")).data.takeWhile (fun c => c ≠ '.'))))
  let r := setVal r "Cadastral Area (Ha)" (val r "Area")
  let r := setVal r "Section" (val r "Sezione")
  r

/-- The canonical external identifier of a (mapped) row, computed from its
spatial fields as in lines 474–481. -/
def extIdOfMapped (r : Row) : String :=
  generateExternalId (getProvinceDetails (val r "Province")).code (val r "Municipality")
    (val r "Section") (val r "Sheet") (val r "Parcel")

/-- One step of the deduplication fold of lines 488–494: the accumulator
carries the `seenIds` set and the surviving rows. -/
def dedupStep (acc : List String × List Row) (row : Row) : List String × List Row :=
  if acc.1.contains (extIdOfMapped row) then acc
  else (acc.1 ++ [extIdOfMapped row], acc.2 ++ [row])

/-- Deduplication by canonical identifier (lines 488–494): the first row per
identifier survives, later repeats are dropped. -/
def dedupByExtId (rows : List Row) : List Row := (rows.foldl dedupStep ([], [])).2

/-- The (business key, canonical identifier) pairs fed into the
`pidMap : ParcelID -> Set<ExternalID>` of lines 483–486. -/
def pidExtPairs (rows : List Row) : List (String × String) :=
  rows.map (fun row => (jsStr (val row "Parcel_ID"), extIdOfMapped row))

/-- Membership in the ambiguous set (lines 496–499): a business key is
ambiguous when its set of canonical identifiers has at least two elements;
the `Set<ExternalID>` is modelled by counting distinct identifiers. -/
def isAmbiguousPid (pairs : List (String × String)) (pid : String) : Bool :=
  2 ≤ (((pairs.filter (fun p => p.1 == pid)).map (fun p => p.2)).dedup).length

/-- The ambiguous business keys of a mapped row list, as a list with
membership semantics (the code keeps them in a `Set<string>`). -/
def ambiguousPidsOf (rows : List Row) : List String :=
  ((rows.map (fun row => jsStr (val row "Parcel_ID"))).dedup).filter
    (isAmbiguousPid (pidExtPairs rows))

/-- The Carga-1 projection of lines 512–517. -/
def carga1Cols : List String :=
  ["Province", "Municipality", "Section", "Sheet", "Parcel", "Cadastral Area (Ha)", "CP"]

/-- `scouted` verification rows: `newRow[col] = row[col] || ''`. -/
def projCarga1 (row : Row) : Row :=
  carga1Cols.foldl (fun acc col => acc ++ [(col, some (jsOrEmpty (val row col)))]) []

/-! ### Owner resolution (lines 522–712) -/

/-- The PEC e-mail map (lines 525–530): rows with truthy `cf` and `pec_email`,
first occurrence per fiscal code wins. -/
def pecMapOf (companies : List Row) : List (String × String) :=
  (companies.filter (fun r => truthy (val r "cf") && truthy (val r "pec_email"))).foldl
    (fun acc r =>
      let cf := jsOrEmpty (val r "cf")
      if acc.any (fun p => p.1 == cf) then acc else acc ++ [(cf, jsOrEmpty (val r "pec_email"))])
    []

/-- `pec_map.get`/`pec_map.has` for a string-or-`undefined` key (the map's
keys are nonempty strings, so an `undefined` key is never present). -/
def pecLookup (m : List (String × String)) (k : Option String) : Option String :=
  match k with
  | some s => (m.find? (fun p => p.1 == s)).map (fun p => p.2)
  | none => none

/-- The `/comune|municipality|city/i` test on a column name. -/
def muniRegexTest (k : String) : Bool :=
  let kl := (toLowerS k).data
  containsSub kl "comune".data || containsSub kl "municipality".data ||
    containsSub kl "city".data

/-- `muniColRaw` (lines 533–535): the first key of the first raw-data row
matching the municipality regex. -/
def muniColOf (rawData : List Row) : Option String :=
  (rowKeys (rawData.headD [])).find? muniRegexTest

/-- `raw_by_pid[pid] || []` (lines 541–546, 571): the raw rows grouped under
the land row's business key; object keys coerce through `String()`. -/
def rawRowsFor (rawData : List Row) (pid : Option String) : List Row :=
  rawData.filter (fun r => jsStr (val r "Parcel_ID") == jsStr pid)

/-- `owners_norm_by_pid[pid] || []` (lines 549–555, 623): normalized owner
rows with truthy business key, grouped under the land row's business key. -/
def normRowsFor (ownersNorm : List Row) (pid : Option String) : List Row :=
  (ownersNorm.filter (fun r => truthy (val r "Parcel_ID"))).filter
    (fun r => jsStr (val r "Parcel_ID") == jsStr pid)

/-- The geographic row predicate of lines 579–583: the candidate's normalised
municipality equals or contains the parcel's. -/
def geoMatch (muniCol : String) (muni : Option String) (r : Row) : Bool :=
  let rMuni := normalizeMuni (val r muniCol)
  let nMuni := normalizeMuni muni
  rMuni == nMuni || containsSub rMuni nMuni

/-- Step 1 of `processOwnersForLand` (lines 573–588): the geographic filter
with its asymmetric fallback — when filtering empties the candidate set, the
unfiltered set is restored only for non-ambiguous business keys. -/
def geoFilterStep (muniCol : Option String) (isAmb : Bool) (muni : Option String)
    (rawRows : List Row) : List Row :=
  match muniCol with
  | none => rawRows
  | some c =>
    if isAmb || decide (rawRows.length > 0) then
      let filtered := rawRows.filter (geoMatch c muni)
      if filtered.isEmpty && !isAmb then rawRows else filtered
    else rawRows

/-- The corporate fiscal-code test of lines 599–603:
`/^\d/.test(String(r.cf_owner || '').trim())`. -/
def corpKeep (r : Row) : Bool :=
  match (jsTrimS (jsOrEmpty (val r "cf_owner"))).data with
  | c :: _ => c.isDigit
  | [] => false

/-- `hasCompany` (lines 592–595): some candidate has a nonempty trimmed
fiscal code starting with a digit. -/
def hasCompanyIn (rows : List Row) : Bool :=
  rows.any (fun r =>
    let cf := jsTrimS (jsOrEmpty (val r "cf_owner"))
    decide (cf.length > 0) && corpKeep r)

/-- Step 1b of `processOwnersForLand` (lines 590–608): when a corporate
candidate survives, keep only corporate candidates. -/
def corporateStep (rows : List Row) : List Row :=
  if hasCompanyIn rows then rows.filter corpKeep else rows

/-- `processOwnersForLand` (lines 563–712): augment one land row with the
resolved owner data.  The progress counters of the original (log-only) are
not modelled. -/
def processOwnersForLand (pecMap : List (String × String)) (muniCol : Option String)
    (ambiguousPids : List String) (rawData ownersNorm : List Row) (landRow : Row) : Row :=
  let pid := val landRow "Parcel_ID"
  let muni := val landRow "Municipality"
  let rawRows := rawRowsFor rawData pid
  let isAmb := ambiguousPids.contains (jsStr pid)
  let filteredRaw := corporateStep (geoFilterStep muniCol isAmb muni rawRows)
  let validCfs :=
    (filteredRaw.filter (fun r => truthy (val r "cf_owner"))).map
      (fun r => jsOrEmpty (val r "cf_owner"))
  let cpValue :=
    filteredRaw.foldl (fun acc r => if truthy (val r "CP") then jsOrEmpty (val r "CP") else acc) ""
  let mainOwnerRow := filteredRaw.head?
  let normRows := normRowsFor ownersNorm pid
  let relevantNormRows :=
    normRows.filter (fun r =>
      match val r "owner_cf" with
      | some cf => validCfs.contains cf
      | none => false)
  let sel :=
    relevantNormRows.foldl
      (fun (acc : JNum × Option Row) r =>
        let q := parseQuota (val r "quota")
        if jGt q acc.1 then (q, some r) else acc)
      (⟨-1, 1⟩, none)
  let mainOwnerNorm := sel.2
  let withOwner :=
    match mainOwnerNorm with
    | some ow =>
      let r1 :=
        match pecLookup pecMap (val ow "owner_cf") with
        | some pec => setVal landRow "Email" (some pec)
        | none => landRow
      let r2 := setVal r1 "Fiscal Code" (val ow "owner_cf")
      let matchingRaw := filteredRaw.find? (fun r => val r "cf_owner" == val ow "owner_cf")
      let names :=
        match matchingRaw with
        | some mr =>
          if truthy (val mr "nome") && truthy (val mr "cognome") then
            (jsOrEmpty (val mr "nome"), jsOrEmpty (val mr "cognome"))
          else ("", cleanOwnerName (val ow "owner_name"))
        | none => ("", cleanOwnerName (val ow "owner_name"))
      (r2, names.1, names.2)
    | none =>
      match mainOwnerRow with
      | some mo =>
        let r1 := setVal landRow "Fiscal Code" (val mo "cf_owner")
        let r2 :=
          match pecLookup pecMap (val mo "cf_owner") with
          | some pec => setVal r1 "Email" (some pec)
          | none => r1
        let names :=
          if truthy (val mo "nome") && truthy (val mo "cognome") then
            (jsOrEmpty (val mo "nome"), jsOrEmpty (val mo "cognome"))
          else
            let nm :=
              if truthy (val mo "denominazione_owner") then val mo "denominazione_owner"
              else if truthy (val mo "owner_name") then val mo "owner_name"
              else some ""
            ("", cleanOwnerName nm)
        (r2, names.1, names.2)
      | none => (landRow, "", "")
  let rA := setVal withOwner.1 "Main Owner Name" (some withOwner.2.1)
  let rB := setVal rA "Main Owner Last Name" (some withOwner.2.2)
  let ownerCount :=
    if relevantNormRows.length > 0 then relevantNormRows.length else filteredRaw.length
  let rC := setVal rB "Number of Owners" (some (String.mk (natReprL ownerCount)))
  let allOwners :=
    if relevantNormRows.length > 0 then
      joinSep ", "
        (relevantNormRows.map (fun r =>
          let nm := cleanOwnerName (val r "owner_name")
          let cf := jsOrEmpty (val r "owner_cf")
          let q := jsOrEmpty (val r "quota")
          let extras := joinSep ", " (([cf, q]).filter (fun s => s ≠ ""))
          if extras ≠ "" then nm ++ " [" ++ extras ++ "]" else nm))
    else
      joinSep ", "
        (filteredRaw.map (fun r =>
          let nmSrc :=
            if truthy (val r "denominazione_owner") then val r "denominazione_owner"
            else some (jsOrEmpty (val r "nome") ++ " " ++ jsOrEmpty (val r "cognome"))
          let nm := cleanOwnerName nmSrc
          let cf := jsOrEmpty (val r "cf_owner")
          let extras := joinSep ", " (([cf]).filter (fun s => s ≠ ""))
          if extras ≠ "" then nm ++ " [" ++ extras ++ "]" else nm))
  let rD := setVal rC "All Owners" (some allOwners)
  setVal rD "CP" (some cpValue)

/-! ### The stage pipeline `runProcess` (lines 450–759) -/

structure OutputData where
  scouted : List Row
  retrieved : List Row
  contacted : List Row
  csvScouted : List Row
  csvRetrieved : List Row
  csvContacted : List Row
deriving Repr, DecidableEq

/-- `inputData['Hoja1'] || inputData['Sheet1']` (an empty array is truthy). -/
def inputSheetOf (inputData : SheetMap) : List Row :=
  match getSheet inputData "Hoja1" with
  | some rows => rows
  | none => getSheetD inputData "Sheet1"

/-- Line 457: drop rows with null/empty business key. -/
def baseFilteredOf (inputData : SheetMap) : List Row :=
  (inputSheetOf inputData).filter (fun row => truthy (val row "Parcel_ID"))

/-- The mapped base rows (before deduplication). -/
def mappedBaseOf (inputData : SheetMap) : List Row :=
  (baseFilteredOf inputData).map mapBaseRow

/-- `df_base`: deduplicated base parcel set. -/
def dfBaseOf (inputData : SheetMap) : List Row := dedupByExtId (mappedBaseOf inputData)

/-- The resolved parcel set `retrievedRaw` (line 715). -/
def retrievedRawOf (inputData resultsData : SheetMap) : List Row :=
  (dfBaseOf inputData).map
    (processOwnersForLand (pecMapOf (getSheetD resultsData "All_Companies_Found"))
      (muniColOf (getSheetD resultsData "All_Raw_Data"))
      (ambiguousPidsOf (mappedBaseOf inputData))
      (getSheetD resultsData "All_Raw_Data")
      (getSheetD resultsData "Owners_Normalized"))

/-- The Retrieved-stage filter (lines 723–726): owner count defined and
`Number(n) > 0`. -/
def retrievedPred (row : Row) : Bool :=
  match val row "Number of Owners" with
  | some s => jsNumGtB s ⟨0, 1⟩
  | none => false

/-- The mailing business-key set (lines 738–741), as a list with membership
semantics. -/
def mailingPidsOf (resultsData : SheetMap) : List String :=
  (getSheetD resultsData "Final_Mailing_By_Parcel").foldl
    (fun acc r => if truthy (val r "Parcel_ID") then acc ++ [jsStr (val r "Parcel_ID")] else acc)
    []

/-- The Contacted-stage filter (line 746): membership of the business key in
the mailing set.  Note it ranges over `retrievedRaw`, not `retrieved`. -/
def contactedPred (resultsData : SheetMap) (row : Row) : Bool :=
  (mailingPidsOf resultsData).contains (jsStr (val row "Parcel_ID"))

/-- `runProcess` (lines 450–759): the three stages and their CRM projections.
Log output is not modelled; the sheets the code dereferences without a
default are modelled with an empty-list default (the function is only invoked
on bundles that passed `validateResultsFile`, where they are present). -/
def runProcess (inputData resultsData : SheetMap) : OutputData :=
  let df_base := dfBaseOf inputData
  let retrievedRaw := retrievedRawOf inputData resultsData
  let retrieved := retrievedRaw.filter retrievedPred
  let contacted := retrievedRaw.filter (contactedPred resultsData)
  { scouted := df_base.map projCarga1
    retrieved := retrieved
    contacted := contacted
    csvScouted := df_base.map (fun r => mapToCsvRow r "Scouted")
    csvRetrieved := retrieved.map (fun r => mapToCsvRow r "Retrieved")
    csvContacted := contacted.map (fun r => mapToCsvRow r "Contacted") }

/-! ### Concrete datasets used to instantiate and refute claims -/

/-- An input row for business key `P1` with all required columns. -/
def rowP1 : Row :=
  [("provincia", some "PC"), ("comune", some "Roma"), ("foglio", some "1"),
   ("particella", some "2"), ("Area", some "3"), ("Sezione", some ""), ("CP", some ""),
   ("Parcel_ID", some "P1")]

/-- An input workbook with the single row `rowP1`. -/
def inputP1 : SheetMap := [("Hoja1", [rowP1])]

/-- A raw ownership candidate for a different business key. -/
def rawOther : Row :=
  [("Parcel_ID", some "OTHER"), ("cf_owner", some "X1"),
   ("denominazione_owner", some "Acme"), ("nome", some ""), ("cognome", some "")]

/-- A normalized owner row for a different business key. -/
def normOther : Row :=
  [("Parcel_ID", some "OTHER"), ("owner_name", some "Acme"), ("owner_cf", some "X1"),
   ("quota", some "1")]

/-- A company contact row. -/
def compX1 : Row := [("cf", some "X1"), ("pec_email", some "a@b.it")]

/-- A mailing-manifest row listing business key `P1` under the exact
`Parcel_ID` column. -/
def mailP1 : Row := [("Parcel_ID", some "P1"), ("Full_Name", some "Acme"), ("cf", some "X1")]

/-- A valid Results bundle whose ownership data concerns only the business
key `OTHER` while the mailing manifest lists `P1`. -/
def resultsC1 : SheetMap :=
  [("All_Raw_Data", [rawOther]), ("Owners_Normalized", [normOther]),
   ("All_Companies_Found", [compX1]), ("Final_Mailing_By_Parcel", [mailP1])]

/-- A raw ownership candidate for `P1` with split first/last names. -/
def rawP1 : Row :=
  [("Parcel_ID", some "P1"), ("cf_owner", some "RSSMRA80A01H501U"),
   ("denominazione_owner", some ""), ("nome", some "Mario"), ("cognome", some "Rossi")]

/-- A normalized owner row for `P1` with a fractional quota. -/
def normP1 : Row :=
  [("Parcel_ID", some "P1"), ("owner_name", some "Mario Rossi"),
   ("owner_cf", some "RSSMRA80A01H501U"), ("quota", some "1/2")]

/-- A valid Results bundle where owner resolution succeeds for `P1` and the
mailing manifest lists `P1`. -/
def resultsC1b : SheetMap :=
  [("All_Raw_Data", [rawP1]), ("Owners_Normalized", [normP1]),
   ("All_Companies_Found", [compX1]), ("Final_Mailing_By_Parcel", [mailP1])]

/-- The single Retrieved-stage record of the `inputP1`/`resultsC1b` run. -/
def rowRetrievedC1b : Row := ((runProcess inputP1 resultsC1b).retrieved).headD []

/-- A raw candidate whose municipality (`Milano`) does not match the parcel
municipality used in the C2 witness (`Roma`). -/
def rowC2 : Row := [("Parcel_ID", some "P2"), ("cf_owner", some "X"), ("comune", some "Milano")]

/-- A corporate raw candidate (digit-leading fiscal code). -/
def rowC3a : Row := [("cf_owner", some "12345")]

/-- An individual raw candidate (letter-leading fiscal code). -/
def rowC3b : Row := [("cf_owner", some "RSSMRA80A01H501U")]

/-- Input row with business key `P6` and municipality spelled `Roma`. -/
def rowC6a : Row :=
  [("provincia", some "PC"), ("comune", some "Roma"), ("foglio", some "1"),
   ("particella", some "2"), ("Area", some "3"), ("Sezione", some ""), ("CP", some ""),
   ("Parcel_ID", some "P6")]

/-- Input row with business key `P6` and municipality spelled `roma` — a
different raw tuple that normalises to the same canonical identifier. -/
def rowC6b : Row :=
  [("provincia", some "PC"), ("comune", some "roma"), ("foglio", some "1"),
   ("particella", some "2"), ("Area", some "3"), ("Sezione", some ""), ("CP", some ""),
   ("Parcel_ID", some "P6")]

/-- Input row with business key `P6` and municipality `Milano` — a genuinely
different physical parcel. -/
def rowC6c : Row :=
  [("provincia", some "PC"), ("comune", some "Milano"), ("foglio", some "1"),
   ("particella", some "2"), ("Area", some "3"), ("Sezione", some ""), ("CP", some ""),
   ("Parcel_ID", some "P6")]

/-- Input workbook where one business key maps to two distinct raw tuples but
a single canonical identifier. -/
def inputC6 : SheetMap := [("Hoja1", [rowC6a, rowC6b])]

/-- Input workbook where one business key maps to two distinct canonical
identifiers. -/
def inputC6b : SheetMap := [("Hoja1", [rowC6a, rowC6c])]

/-- A Results bundle whose four sheets are present and correct except that
the mailing-manifest sheet is empty. -/
def resultsC8empty : SheetMap :=
  [("All_Raw_Data", [rawOther]), ("Owners_Normalized", [normOther]),
   ("All_Companies_Found", [compX1]), ("Final_Mailing_By_Parcel", [])]

/-- A mailing-manifest row carrying the business key only under the
`Elenco_Parcel_ID` alias (no `Parcel_ID` column). -/
def mailElenco : Row :=
  [("Elenco_Parcel_ID", some "P1"), ("Destinatario", some "Acme"), ("cf", some "X1")]

/-- A valid Results bundle whose mailing manifest uses only the
`Elenco_Parcel_ID` alias. -/
def resultsC10 : SheetMap :=
  [("All_Raw_Data", [rawP1]), ("Owners_Normalized", [normP1]),
   ("All_Companies_Found", [compX1]), ("Final_Mailing_By_Parcel", [mailElenco])]

/-! ## Helper lemmas -/

theorem dropWhile_all_false {p : Char → Bool} {l : List Char} (h : ∀ c ∈ l, p c = false) :
    l.dropWhile p = l := by
  cases l with
  | nil => rfl
  | cons c t => rw [List.dropWhile_cons, h c (by simp)]; simp

theorem takeWhile_all_true {p : Char → Bool} {l : List Char} (h : ∀ c ∈ l, p c = true) :
    l.takeWhile p = l := by
  induction l with
  | nil => rfl
  | cons c t ih =>
    rw [List.takeWhile_cons, h c (by simp)]
    simp [ih (fun x hx => h x (by simp [hx]))]

theorem dropWhile_all_true {p : Char → Bool} {l : List Char} (h : ∀ c ∈ l, p c = true) :
    l.dropWhile p = [] := by
  induction l with
  | nil => rfl
  | cons c t ih =>
    rw [List.dropWhile_cons, h c (by simp)]
    exact ih (fun x hx => h x (by simp [hx]))

theorem trimL_id {l : List Char} (h : ∀ c ∈ l, c.isWhitespace = false) : trimL l = l := by
  unfold trimL dropWs
  rw [dropWhile_all_false h,
    dropWhile_all_false (fun c hc => h c (List.mem_reverse.mp hc)), List.reverse_reverse]

theorem isWs_false_of_isDigit {c : Char} (h : c.isDigit = true) : c.isWhitespace = false := by
  cases hws : c.isWhitespace
  · rfl
  · exfalso
    have hd : c = ' ' ∨ c = '\t' ∨ c = '\r' ∨ c = '\n' := by
      simpa [Char.isWhitespace, or_assoc] using hws
    rcases hd with h1 | h1 | h1 | h1 <;> subst h1 <;> exact absurd h (by decide)

theorem ne_of_isDigit {c d : Char} (h : c.isDigit = true) (hd : d.isDigit = false) : c ≠ d := by
  intro he
  subst he
  rw [h] at hd
  cases hd

theorem splitChar_no_sep {sep : Char} {l : List Char} (h : ∀ c ∈ l, c ≠ sep) :
    splitChar sep l = [l] := by
  induction l with
  | nil => rfl
  | cons c t ih =>
    have hr := ih (fun x hx => h x (List.mem_cons_of_mem _ hx))
    simp only [splitChar, hr]
    rw [if_neg (h c (by simp))]

theorem splitChar_append {sep : Char} {a b : List Char} (ha : ∀ c ∈ a, c ≠ sep)
    (hb : ∀ c ∈ b, c ≠ sep) : splitChar sep (a ++ sep :: b) = [a, b] := by
  induction a with
  | nil =>
    simp only [List.nil_append, splitChar, splitChar_no_sep hb]
    simp
  | cons c t ih =>
    have hr := ih (fun x hx => ha x (List.mem_cons_of_mem _ hx))
    simp only [List.cons_append, splitChar, List.append_eq, hr]
    rw [if_neg (ha c (by simp))]

theorem replaceFirstChar_id {a b : Char} {l : List Char} (h : ∀ c ∈ l, c ≠ a) :
    replaceFirstChar a b l = l := by
  induction l with
  | nil => rfl
  | cons c t ih =>
    simp only [replaceFirstChar]
    rw [if_neg (h c (by simp))]
    rw [ih (fun x hx => h x (List.mem_cons_of_mem _ hx))]

theorem digitsVal_append_one (l : List Char) (c : Char) :
    digitsVal (l ++ [c]) = 10 * digitsVal l + (c.toNat - 48) := by
  unfold digitsVal
  rw [List.foldl_append]
  rfl

theorem natReprAux_spec (fuel : ℕ) : ∀ n : ℕ, n < 10 ^ fuel →
    digitsVal (natReprAux fuel n) = n ∧ (∀ c ∈ natReprAux fuel n, c.isDigit = true) ∧
      (fuel ≠ 0 → natReprAux fuel n ≠ []) := by
  induction fuel with
  | zero =>
    intro n h
    interval_cases n
    exact ⟨rfl, by simp [natReprAux], fun hf => absurd rfl hf⟩
  | succ f ih =>
    intro n h
    by_cases h10 : n < 10
    · rw [natReprAux, if_pos h10]
      refine ⟨?_, ?_, by simp⟩
      · interval_cases n <;> decide
      · intro c hc
        simp only [List.mem_singleton] at hc
        subst hc
        interval_cases n <;> decide
    · rw [natReprAux, if_neg h10]
      have hdiv : n / 10 < 10 ^ f := by
        rw [Nat.div_lt_iff_lt_mul (by norm_num)]
        calc n < 10 ^ (f + 1) := h
        _ = 10 ^ f * 10 := by ring
      obtain ⟨ih1, ih2, _⟩ := ih (n / 10) hdiv
      have hm : n % 10 < 10 := Nat.mod_lt _ (by norm_num)
      have hdigit : (Char.ofNat (48 + n % 10)).toNat - 48 = n % 10 ∧
          (Char.ofNat (48 + n % 10)).isDigit = true := by
        set m := n % 10 with hmdef
        clear_value m
        interval_cases m <;> exact ⟨by decide, by decide⟩
      refine ⟨?_, ?_, by simp⟩
      · rw [digitsVal_append_one, ih1, hdigit.1]
        omega
      · intro c hc
        rcases List.mem_append.mp hc with h1 | h1
        · exact ih2 c h1
        · simp only [List.mem_singleton] at h1
          subst h1
          exact hdigit.2

theorem natReprL_spec (n : ℕ) :
    digitsVal (natReprL n) = n ∧ (∀ c ∈ natReprL n, c.isDigit = true) ∧ natReprL n ≠ [] := by
  have hlt : n < 10 ^ (n + 1) := by
    calc n < 10 ^ n := Nat.lt_pow_self (by norm_num) n
    _ ≤ 10 ^ (n + 1) := Nat.pow_le_pow_right (by norm_num) (Nat.le_succ n)
  obtain ⟨h1, h2, h3⟩ := natReprAux_spec (n + 1) n hlt
  exact ⟨h1, h2, h3 (by simp)⟩

theorem isPrefL_0x_false {l : List Char} (hd : ∀ c ∈ l, c.isDigit = true) {x : Char}
    (hx : x.isDigit = false) : isPrefL ['0', x] l = false := by
  cases l with
  | nil => rfl
  | cons c t =>
    cases t with
    | nil => simp [isPrefL]
    | cons c2 t2 =>
      have hne : x ≠ c2 := fun he => (ne_of_isDigit (hd c2 (by simp)) hx) he.symm
      simp [isPrefL, hne]

theorem parseIntCore_digits {l : List Char} (hne : l ≠ []) (hd : ∀ c ∈ l, c.isDigit = true) :
    parseIntCore l = some (digitsVal l : Int) := by
  unfold parseIntCore
  rw [isPrefL_0x_false hd (x := 'x') (by decide), isPrefL_0x_false hd (x := 'X') (by decide)]
  simp only [Bool.or_self, Bool.false_eq_true, if_false, takeWhile_all_true hd]
  rw [if_neg hne]

theorem jsParseIntL_natRepr (n : ℕ) : jsParseIntL (natReprL n) = some (n : Int) := by
  obtain ⟨h1, h2, h3⟩ := natReprL_spec n
  unfold jsParseIntL
  rw [show dropWs (natReprL n) = natReprL n from
    dropWhile_all_false (fun c hc => isWs_false_of_isDigit (h2 c hc))]
  rcases hl : natReprL n with _ | ⟨c, t⟩
  · exact absurd hl h3
  · rw [hl] at h1 h2
    show (if c = '-' then (parseIntCore t).map (fun n => -n)
      else if c = '+' then parseIntCore t else parseIntCore (c :: t)) = some (n : Int)
    have hc : c.isDigit = true := h2 c (by simp)
    rw [if_neg (ne_of_isDigit hc (by decide)), if_neg (ne_of_isDigit hc (by decide))]
    rw [parseIntCore_digits (by simp) h2, h1]

theorem intReprS_natCast (n : ℕ) : intReprS (n : Int) = String.mk (natReprL n) := by
  unfold intReprS
  rw [if_neg (by omega)]
  simp

theorem parseDecCore_digits {l : List Char} (hne : l ≠ []) (hd : ∀ c ∈ l, c.isDigit = true) :
    parseDecCore l = some ⟨(digitsVal l : Int), 1⟩ := by
  unfold parseDecCore
  rw [takeWhile_all_true hd, dropWhile_all_true hd]
  simp only []
  rw [if_neg (by simp [hne])]
  simp [jAdd, jTimesPow10, parseExpPart, pow10, digitsVal]

theorem jsParseFloatL_digits {l : List Char} (hne : l ≠ []) (hd : ∀ c ∈ l, c.isDigit = true) :
    jsParseFloatL l = some ⟨(digitsVal l : Int), 1⟩ := by
  unfold jsParseFloatL
  rw [show dropWs l = l from dropWhile_all_false (fun c hc => isWs_false_of_isDigit (hd c hc))]
  cases l with
  | nil => exact absurd rfl hne
  | cons c t =>
    show (if c = '-' then (parseDecCore t).map jNeg
      else if c = '+' then parseDecCore t else parseDecCore (c :: t)) =
        some ⟨(digitsVal (c :: t) : Int), 1⟩
    have hc : c.isDigit = true := hd c (by simp)
    rw [if_neg (ne_of_isDigit hc (by decide)), if_neg (ne_of_isDigit hc (by decide))]
    exact parseDecCore_digits hne hd

/-! ## Claims C2, C3, C4 -/

/-- Claim C2 (confirmed): the geographic filter's asymmetric fallback.  When
a municipality column exists and filtering the raw candidates empties the
set, a non-ambiguous business key falls back to the unfiltered candidate set,
while an ambiguous key keeps the empty set — and the subsequent
corporate-priority step then also yields zero surviving candidates. -/
theorem C2_geo_fallback (c : String) (muni : Option String) (rawRows : List Row)
    (hemp : rawRows.filter (geoMatch c muni) = []) :
    geoFilterStep (some c) false muni rawRows = rawRows
    ∧ geoFilterStep (some c) true muni rawRows = []
    ∧ corporateStep (geoFilterStep (some c) true muni rawRows) = [] := by
  have htrue : geoFilterStep (some c) true muni rawRows = [] := by
    unfold geoFilterStep
    simp [hemp]
  refine ⟨?_, htrue, ?_⟩
  · unfold geoFilterStep
    cases rawRows with
    | nil => simp
    | cons r t => simp [hemp]
  · rw [htrue]
    rfl

/-- Witness for C2 at a concrete parcel: one raw candidate in `Milano`,
parcel municipality `Roma`. -/
theorem C2_geo_fallback_witness :
    ([rowC2].filter (geoMatch "comune" (some "Roma")) = [])
    ∧ geoFilterStep (some "comune") false (some "Roma") [rowC2] = [rowC2]
    ∧ geoFilterStep (some "comune") true (some "Roma") [rowC2] = []
    ∧ corporateStep (geoFilterStep (some "comune") true (some "Roma") [rowC2]) = [] := by
  have h : [rowC2].filter (geoMatch "comune" (some "Roma")) = [] := by decide
  obtain ⟨h1, h2, h3⟩ := C2_geo_fallback "comune" (some "Roma") [rowC2] h
  exact ⟨h, h1, h2, h3⟩

/-- Claim C3 (confirmed): corporate priority.  If some surviving raw
candidate has a digit-leading (trimmed) fiscal code, the candidate list is
reduced to exactly the digit-leading candidates; in particular the pair
`[{cf_owner: "12345"}, {cf_owner: "RSSMRA80A01H501U"}]` keeps only the
first. -/
theorem C3_corporate_priority :
    (∀ rows : List Row, (∃ r ∈ rows, corpKeep r = true) →
      corporateStep rows = rows.filter corpKeep
      ∧ ∀ r ∈ corporateStep rows, corpKeep r = true)
    ∧ corporateStep [rowC3a, rowC3b] = [rowC3a] := by
  constructor
  · rintro rows ⟨r, hr, hk⟩
    have hlen : 0 < (jsTrimS (jsOrEmpty (val r "cf_owner"))).length := by
      unfold corpKeep at hk
      cases hdata : (jsTrimS (jsOrEmpty (val r "cf_owner"))).data with
      | nil => rw [hdata] at hk; exact absurd hk (by simp)
      | cons c t =>
        show 0 < (jsTrimS (jsOrEmpty (val r "cf_owner"))).data.length
        rw [hdata]
        simp
    have hco : hasCompanyIn rows = true := by
      unfold hasCompanyIn
      exact List.any_eq_true.mpr ⟨r, hr, by simp [hk, hlen]⟩
    have hstep : corporateStep rows = rows.filter corpKeep := by
      unfold corporateStep
      rw [hco]
      simp
    refine ⟨hstep, ?_⟩
    intro x hx
    rw [hstep] at hx
    exact (List.mem_filter.mp hx).2
  · decide

/-- Witness for C3 at the concrete candidate pair of the claim. -/
theorem C3_corporate_priority_witness :
    (∃ r ∈ [rowC3a, rowC3b], corpKeep r = true)
    ∧ corporateStep [rowC3a, rowC3b] = [rowC3a, rowC3b].filter corpKeep := by
  have hex : ∃ r ∈ [rowC3a, rowC3b], corpKeep r = true := ⟨rowC3a, by simp, by decide⟩
  exact ⟨hex, (C3_corporate_priority.1 _ hex).1⟩

/-- Counterexample to claim C4 as stated: for the fraction string `"5/0"`
(denominator 0) `parseQuota` does not return 0 — the string falls through to
`parseFloat`, which parses the leading `5`. -/
theorem C4_quota_cex :
    (parseQuota (some "5/0")).toQ = 5 ∧ (5 : ℚ) ≠ 0 ∧ (parseQuota (some "5/x")).toQ = 5 := by
  have h1 : parseQuota (some "5/0") = ⟨5, 1⟩ := rfl
  have h2 : parseQuota (some "5/x") = ⟨5, 1⟩ := rfl
  rw [h1, h2]
  norm_num [JNum.toQ]

/-- Claim C4 (corrected): quota parsing.  The concrete examples hold
(`"1/2"` ↦ 1/2, `"50,5"` ↦ 50.5, `""` ↦ 0, `"abc"` ↦ 0, missing ↦ 0), and a
fraction of digit strings with nonzero denominator parses to the exact
quotient; but a fraction whose denominator is 0 or non-numeric falls through
to decimal parsing of the whole string instead of returning 0 (see the
counterexample). -/
theorem C4_quota_parsing :
    (parseQuota (some "1/2")).toQ = 1 / 2
    ∧ (parseQuota (some "50,5")).toQ = 101 / 2
    ∧ (parseQuota (some "")).toQ = 0
    ∧ (parseQuota (some "abc")).toQ = 0
    ∧ (parseQuota none).toQ = 0
    ∧ ∀ a b : List Char, a ≠ [] → b ≠ [] → (∀ c ∈ a, c.isDigit = true) →
        (∀ c ∈ b, c.isDigit = true) → digitsVal b ≠ 0 →
        (parseQuota (some (String.mk (a ++ '/' :: b)))).toQ =
          (digitsVal a : ℚ) / (digitsVal b : ℚ) := by
  refine ⟨?_, ?_, ?_, ?_, ?_, ?_⟩
  · rw [show parseQuota (some "1/2") = ⟨1, 2⟩ from rfl]
    norm_num [JNum.toQ]
  · rw [show parseQuota (some "50,5") = ⟨505, 10⟩ from rfl]
    norm_num [JNum.toQ]
  · rw [show parseQuota (some "") = ⟨0, 1⟩ from rfl]
    norm_num [JNum.toQ]
  · rw [show parseQuota (some "abc") = ⟨0, 1⟩ from rfl]
    norm_num [JNum.toQ]
  · rw [show parseQuota none = ⟨0, 1⟩ from rfl]
    norm_num [JNum.toQ]
  · intro a b ha hb hda hdb hbz
    have hna : ∀ c ∈ a, c ≠ '/' := fun c hc => ne_of_isDigit (hda c hc) (by decide)
    have hnb : ∀ c ∈ b, c ≠ '/' := fun c hc => ne_of_isDigit (hdb c hc) (by decide)
    have hws : ∀ c ∈ a ++ '/' :: b, c.isWhitespace = false := by
      intro c hc
      rcases List.mem_append.mp hc with h1 | h1
      · exact isWs_false_of_isDigit (hda c h1)
      · rcases List.mem_cons.mp h1 with h2 | h2
        · subst h2; decide
        · exact isWs_false_of_isDigit (hdb c h2)
    have hcontains : (a ++ '/' :: b).contains '/' = true := by
      simp [List.contains]
    have htrim : trimL (a ++ '/' :: b) = a ++ '/' :: b := trimL_id hws
    unfold parseQuota
    simp only [htrim, hcontains, eq_self_iff_true, if_true]
    rw [splitChar_append hna hnb]
    simp only []
    rw [jsParseFloatL_digits ha hda, jsParseFloatL_digits hb hdb]
    have hz : jIsZero ⟨(digitsVal b : Int), 1⟩ = false := by
      simp [jIsZero, hbz]
    simp only [hz, Bool.false_eq_true, not_false_eq_true, if_true, not_false_iff]
    simp only [jDiv]
    rw [if_neg (show ¬ ((⟨(digitsVal a : Int), 1⟩ : JNum).den * (⟨(digitsVal b : Int), 1⟩ : JNum).num < 0) by simp)]
    simp only [JNum.toQ]
    push_cast
    ring

/-- Witness for the general fraction clause of C4 at `a = "7"`, `b = "4"`. -/
theorem C4_quota_parsing_witness :
    ((['7'] : List Char) ≠ [] ∧ (['4'] : List Char) ≠ []
      ∧ (∀ c ∈ (['7'] : List Char), c.isDigit = true)
      ∧ (∀ c ∈ (['4'] : List Char), c.isDigit = true) ∧ digitsVal ['4'] ≠ 0)
    ∧ (parseQuota (some (String.mk (['7'] ++ '/' :: ['4'])))).toQ =
        (digitsVal ['7'] : ℚ) / (digitsVal ['4'] : ℚ) := by
  refine ⟨⟨by decide, by decide, by decide, by decide, by decide⟩, ?_⟩
  exact C4_quota_parsing.2.2.2.2.2 ['7'] ['4'] (by decide) (by decide) (by decide) (by decide)
    (by decide)

/-! ## Claims C5, C7, C9 -/

/-- Claim C5 (confirmed): canonical identifier format.  The concrete instance
`PC/M/S/42/7 ↦ PC-M-S-0042-00007` holds, and for every province code,
municipality, (trimmed) section and numeric sheet/parcel the identifier is
`{code}-{municipality uppercased, whitespace removed}-{section or X}-{sheet
zero-padded to 4}-{parcel zero-padded to 5}`. -/
theorem C5_external_id_format :
    generateExternalId "PC" (some "M") (some "S") (some "42") (some "7") = "PC-M-S-0042-00007"
    ∧ ∀ (pc m sec : String) (sh pa : ℕ),
        generateExternalId pc (some m) (some sec) (some (String.mk (natReprL sh)))
            (some (String.mk (natReprL pa))) =
          pc ++ "-" ++ stripWsS (toUpperS m) ++ "-" ++
            (if jsTrimS sec ≠ "" then jsTrimS sec else "X") ++ "-" ++
            padStartStr (String.mk (natReprL sh)) 4 '0' ++ "-" ++
            padStartStr (String.mk (natReprL pa)) 5 '0' := by
  constructor
  · decide
  · intro pc m sec sh pa
    unfold generateExternalId
    have hsh : jsParseIntL (jsStr (some (String.mk (natReprL sh)))).data = some (sh : Int) :=
      jsParseIntL_natRepr sh
    have hpa : jsParseIntL (jsStr (some (String.mk (natReprL pa)))).data = some (pa : Int) :=
      jsParseIntL_natRepr pa
    simp only [hsh, hpa, intReprS_natCast]
    rfl

/-- Counterexample to claim C7 as stated: for the unmatched input `"gotham"`
the fallback result carries the original input as the canonical name (not
blank) and uppercases the code (`"GO"`, not the input's own first two
characters `"go"`). -/
theorem C7_province_fallback_cex :
    getProvinceDetails (some "gotham") = ⟨"GO", "", some "gotham"⟩
    ∧ ("GO" : String) ≠ "go" ∧ (some "gotham" : Option String) ≠ some "" :=
  ⟨by decide, by decide, by decide⟩

/-- Claim C7 (corrected): province resolution fallback.  For an input whose
uppercased trimmed form misses the lookup table, the result has the
uppercased trimmed input as code when it has exactly 2 characters (otherwise
its first two characters, uppercased), a blank region, and the original input
— not a blank — as the canonical name. -/
theorem C7_province_fallback (s : String)
    (h : provinceLookup (jsTrimS (toUpperS s)) = none) :
    getProvinceDetails (some s) =
      ⟨if (jsTrimS (toUpperS s)).length = 2 then jsTrimS (toUpperS s)
        else toUpperS (takeStr (jsTrimS (toUpperS s)) 2), "", some s⟩ := by
  unfold getProvinceDetails
  rw [show jsStr (some s) = s from rfl]
  simp only [h]
  by_cases hc : (jsTrimS (toUpperS s)).length = 2
  · rw [if_pos hc, if_pos hc]
  · rw [if_neg hc, if_neg hc]

/-- Witness for C7 at the concrete unmatched input `"gotham"`. -/
theorem C7_province_fallback_witness :
    provinceLookup (jsTrimS (toUpperS "gotham")) = none
    ∧ getProvinceDetails (some "gotham") =
        ⟨if (jsTrimS (toUpperS "gotham")).length = 2 then jsTrimS (toUpperS "gotham")
          else toUpperS (takeStr (jsTrimS (toUpperS "gotham")) 2), "", some "gotham"⟩ := by
  have h : provinceLookup (jsTrimS (toUpperS "gotham")) = none := by decide
  exact ⟨h, C7_province_fallback "gotham" h⟩

/-- Claim C9 (confirmed): every Scouted-stage CRM row has last name
`"Pending Owner"` and an empty first name, whatever owner fields the source
row carries. -/
theorem C9_scouted_placeholder (row : Row) :
    val (mapToCsvRow row "Scouted") "Main Owner Last Name" = some "Pending Owner"
    ∧ val (mapToCsvRow row "Scouted") "Main Owner Name" = some "" :=
  ⟨rfl, rfl⟩

/-! ## Row-object lemmas -/

theorem val_map_overwrite {k k' : String} {v : Option String} (h : k ≠ k') (r : Row) :
    val (r.map (fun p => if p.1 == k' then (k', v) else p)) k = val r k := by
  induction r with
  | nil => rfl
  | cons p t ih =>
    simp only [List.map_cons]
    by_cases hp : (p.1 == k') = true
    · rw [if_pos hp]
      show (if k' = k then v else val (t.map _) k) = val (p :: t) k
      rw [if_neg (fun he => h he.symm)]
      have hpk : ¬ p.1 = k := by
        rw [beq_iff_eq.mp hp]
        exact fun he => h he.symm
      show val (t.map _) k = if p.1 = k then p.2 else val t k
      rw [if_neg hpk]
      exact ih
    · rw [if_neg hp]
      show (if p.1 = k then p.2 else val (t.map _) k) = if p.1 = k then p.2 else val t k
      by_cases hpk : p.1 = k
      · rw [if_pos hpk, if_pos hpk]
      · rw [if_neg hpk, if_neg hpk]
        exact ih

theorem val_append_single {k k' : String} {v : Option String} (h : k ≠ k') (r : Row) :
    val (r ++ [(k', v)]) k = val r k := by
  induction r with
  | nil =>
    show (if k' = k then v else val [] k) = none
    rw [if_neg (fun he => h he.symm)]
    rfl
  | cons p t ih =>
    show (if p.1 = k then p.2 else val (t ++ [(k', v)]) k) = if p.1 = k then p.2 else val t k
    by_cases hpk : p.1 = k
    · rw [if_pos hpk, if_pos hpk]
    · rw [if_neg hpk, if_neg hpk]
      exact ih

theorem val_setVal_ne {r : Row} {k k' : String} {v : Option String} (h : k ≠ k') :
    val (setVal r k' v) k = val r k := by
  unfold setVal
  by_cases hk : hasKey r k' = true
  · rw [if_pos hk]
    exact val_map_overwrite h r
  · rw [if_neg hk]
    exact val_append_single h r

theorem val_map_overwrite_self {k : String} {v : Option String} (r : Row)
    (hk : hasKey r k = true) :
    val (r.map (fun p => if p.1 == k then (k, v) else p)) k = v := by
  induction r with
  | nil => cases hk
  | cons p t ih =>
    simp only [List.map_cons]
    by_cases hp : (p.1 == k) = true
    · rw [if_pos hp]
      show (if k = k then v else val (t.map _) k) = v
      rw [if_pos rfl]
    · rw [if_neg hp]
      have hpk : ¬ p.1 = k := by simpa using hp
      show (if p.1 = k then p.2 else val (t.map _) k) = v
      rw [if_neg hpk]
      apply ih
      have hk' : (p.1 == k) = true ∨ hasKey t k = true := by
        have := hk
        unfold hasKey at this
        simpa using this
      rcases hk' with h1 | h1
      · exact absurd h1 hp
      · exact h1

theorem val_append_single_self {k : String} {v : Option String} (r : Row)
    (hk : hasKey r k = false) : val (r ++ [(k, v)]) k = v := by
  induction r with
  | nil =>
    show (if k = k then v else val [] k) = v
    rw [if_pos rfl]
  | cons p t ih =>
    unfold hasKey at hk
    rcases Bool.or_eq_false_iff.mp hk with ⟨h1, h2⟩
    show (if p.1 = k then p.2 else val (t ++ [(k, v)]) k) = v
    rw [if_neg (by simpa using h1)]
    exact ih h2

theorem val_setVal_self (r : Row) (k : String) (v : Option String) :
    val (setVal r k v) k = v := by
  unfold setVal
  by_cases hk : hasKey r k = true
  · rw [if_pos hk]
    exact val_map_overwrite_self r hk
  · rw [if_neg hk]
    exact val_append_single_self r (by simpa using hk)

theorem mem_rowKeys_of_hasKey {r : Row} {k : String} (h : hasKey r k = true) : k ∈ rowKeys r := by
  induction r with
  | nil => cases h
  | cons p t ih =>
    have h' : (p.1 == k) = true ∨ hasKey t k = true := by
      unfold hasKey at h
      simpa using h
    rcases h' with h1 | h1
    · rw [← beq_iff_eq.mp h1]
      exact List.mem_cons_self _ _
    · exact List.mem_cons_of_mem _ (ih h1)

theorem val_mapBaseRow_Province (r : Row) : val (mapBaseRow r) "Province" = val r "provincia" := by
  unfold mapBaseRow
  rw [val_setVal_ne (by decide), val_setVal_ne (by decide), val_setVal_ne (by decide),
    val_setVal_ne (by decide), val_setVal_ne (by decide), val_setVal_self]

theorem val_mapBaseRow_Municipality (r : Row) :
    val (mapBaseRow r) "Municipality" = val r "comune" := by
  unfold mapBaseRow
  rw [val_setVal_ne (by decide), val_setVal_ne (by decide), val_setVal_ne (by decide),
    val_setVal_ne (by decide), val_setVal_self, val_setVal_ne (by decide)]

theorem val_mapBaseRow_Sheet (r : Row) :
    val (mapBaseRow r) "Sheet" =
      some (String.mk ((jsStr (val r "foglio")).data.takeWhile (fun c => c ≠ '.'))) := by
  unfold mapBaseRow
  rw [val_setVal_ne (by decide), val_setVal_ne (by decide), val_setVal_ne (by decide),
    val_setVal_self, val_setVal_ne (by decide), val_setVal_ne (by decide)]

theorem val_mapBaseRow_Parcel (r : Row) :
    val (mapBaseRow r) "Parcel" =
      some (String.mk ((jsStr (val r "particella")).data.takeWhile (fun c => c ≠ '.'))) := by
  unfold mapBaseRow
  rw [val_setVal_ne (by decide), val_setVal_ne (by decide), val_setVal_self,
    val_setVal_ne (by decide), val_setVal_ne (by decide), val_setVal_ne (by decide)]

theorem val_mapBaseRow_Section (r : Row) : val (mapBaseRow r) "Section" = val r "Sezione" := by
  unfold mapBaseRow
  rw [val_setVal_self, val_setVal_ne (by decide), val_setVal_ne (by decide),
    val_setVal_ne (by decide), val_setVal_ne (by decide), val_setVal_ne (by decide)]

theorem val_mapBaseRow_ParcelID (r : Row) :
    val (mapBaseRow r) "Parcel_ID" = val r "Parcel_ID" := by
  unfold mapBaseRow
  rw [val_setVal_ne (by decide), val_setVal_ne (by decide), val_setVal_ne (by decide),
    val_setVal_ne (by decide), val_setVal_ne (by decide), val_setVal_ne (by decide)]

/-! ## Claim C6 -/

/-- Counterexample to claim C6 as stated: two validated input rows share the
business key `P6` and have different raw (municipality, section, sheet,
parcel) tuples (`Roma` vs `roma`), yet both normalise to the same canonical
identifier, so the key is not placed in the ambiguous set. -/
theorem C6_ambiguity_cex :
    validateInputFile inputC6 = ⟨true, []⟩
    ∧ val rowC6a "comune" ≠ val rowC6b "comune"
    ∧ jsStr (val rowC6a "Parcel_ID") = jsStr (val rowC6b "Parcel_ID")
    ∧ ambiguousPidsOf (mappedBaseOf inputC6) = [] :=
  ⟨by decide, by decide, by decide, by decide⟩

theorem two_le_dedup_length {l : List String} {a b : String} (ha : a ∈ l) (hb : b ∈ l)
    (hab : a ≠ b) : 2 ≤ l.dedup.length := by
  have hsub : ({a, b} : Finset String) ⊆ l.toFinset := by
    intro x hx
    rcases Finset.mem_insert.mp hx with h | h
    · subst h
      exact List.mem_toFinset.mpr ha
    · rw [Finset.mem_singleton] at h
      subst h
      exact List.mem_toFinset.mpr hb
  calc 2 = ({a, b} : Finset String).card := (Finset.card_pair hab).symm
  _ ≤ l.toFinset.card := Finset.card_le_card hsub
  _ = l.dedup.length := List.card_toFinset l

/-- Claim C6 (corrected): ambiguity detection is keyed on the canonical
identifier, not on the raw tuple.  Whenever two kept input rows share a
business key but produce different canonical identifiers, that key is in the
ambiguous set; two rows with different raw tuples that normalise to the same
identifier do not make the key ambiguous (see the counterexample). -/
theorem C6_ambiguity (inputData : SheetMap) (a b : Row)
    (ha : a ∈ baseFilteredOf inputData) (hb : b ∈ baseFilteredOf inputData)
    (hpid : jsStr (val a "Parcel_ID") = jsStr (val b "Parcel_ID"))
    (hext : extIdOfMapped (mapBaseRow a) ≠ extIdOfMapped (mapBaseRow b)) :
    (ambiguousPidsOf (mappedBaseOf inputData)).contains (jsStr (val a "Parcel_ID")) = true := by
  set pairs := pidExtPairs (mappedBaseOf inputData) with hpairs
  have h1 : (jsStr (val a "Parcel_ID"), extIdOfMapped (mapBaseRow a)) ∈ pairs := by
    rw [hpairs]
    unfold pidExtPairs
    refine List.mem_map.mpr ⟨mapBaseRow a, List.mem_map_of_mem _ ha, ?_⟩
    rw [val_mapBaseRow_ParcelID]
  have h2 : (jsStr (val a "Parcel_ID"), extIdOfMapped (mapBaseRow b)) ∈ pairs := by
    rw [hpairs]
    unfold pidExtPairs
    refine List.mem_map.mpr ⟨mapBaseRow b, List.mem_map_of_mem _ hb, ?_⟩
    rw [val_mapBaseRow_ParcelID, hpid]
  have hm1 : extIdOfMapped (mapBaseRow a) ∈
      ((pairs.filter (fun p => p.1 == jsStr (val a "Parcel_ID"))).map (fun p => p.2)) :=
    List.mem_map.mpr ⟨_, List.mem_filter.mpr ⟨h1, beq_self_eq_true _⟩, rfl⟩
  have hm2 : extIdOfMapped (mapBaseRow b) ∈
      ((pairs.filter (fun p => p.1 == jsStr (val a "Parcel_ID"))).map (fun p => p.2)) :=
    List.mem_map.mpr ⟨_, List.mem_filter.mpr ⟨h2, beq_self_eq_true _⟩, rfl⟩
  have hamb : isAmbiguousPid pairs (jsStr (val a "Parcel_ID")) = true := by
    unfold isAmbiguousPid
    rw [decide_eq_true_eq]
    exact two_le_dedup_length hm1 hm2 hext
  have hpmem : jsStr (val a "Parcel_ID")
      ∈ (mappedBaseOf inputData).map (fun row => jsStr (val row "Parcel_ID")) :=
    List.mem_map.mpr ⟨mapBaseRow a, List.mem_map_of_mem _ ha, by rw [val_mapBaseRow_ParcelID]⟩
  have hfin : jsStr (val a "Parcel_ID") ∈
      (((mappedBaseOf inputData).map (fun row => jsStr (val row "Parcel_ID"))).dedup).filter
        (isAmbiguousPid pairs) :=
    List.mem_filter.mpr ⟨List.mem_dedup.mpr hpmem, hamb⟩
  unfold ambiguousPidsOf
  rw [← hpairs]
  exact List.elem_eq_true_of_mem hfin

/-- Witness for C6 at a concrete input whose key `P6` maps to two distinct
canonical identifiers (`Roma` vs `Milano`). -/
theorem C6_ambiguity_witness :
    (rowC6a ∈ baseFilteredOf inputC6b ∧ rowC6c ∈ baseFilteredOf inputC6b
      ∧ jsStr (val rowC6a "Parcel_ID") = jsStr (val rowC6c "Parcel_ID")
      ∧ extIdOfMapped (mapBaseRow rowC6a) ≠ extIdOfMapped (mapBaseRow rowC6c))
    ∧ (ambiguousPidsOf (mappedBaseOf inputC6b)).contains (jsStr (val rowC6a "Parcel_ID")) = true := by
  have ha : rowC6a ∈ baseFilteredOf inputC6b := by decide
  have hb : rowC6c ∈ baseFilteredOf inputC6b := by decide
  have hp : jsStr (val rowC6a "Parcel_ID") = jsStr (val rowC6c "Parcel_ID") := by decide
  have he : extIdOfMapped (mapBaseRow rowC6a) ≠ extIdOfMapped (mapBaseRow rowC6c) := by decide
  exact ⟨⟨ha, hb, hp, he⟩, C6_ambiguity inputC6b rowC6a rowC6c ha hb hp he⟩

/-! ## Claim C1 -/

theorem mem_of_mem_dedupFold (rows : List Row) :
    ∀ acc : List String × List Row, ∀ r ∈ (rows.foldl dedupStep acc).2, r ∈ acc.2 ∨ r ∈ rows := by
  induction rows with
  | nil =>
    intro acc r hr
    exact Or.inl hr
  | cons row t ih =>
    intro acc r hr
    rw [List.foldl_cons] at hr
    rcases ih (dedupStep acc row) r hr with h1 | h1
    · unfold dedupStep at h1
      by_cases hc : acc.1.contains (extIdOfMapped row) = true
      · rw [if_pos hc] at h1
        exact Or.inl h1
      · rw [if_neg hc] at h1
        rcases List.mem_append.mp h1 with h2 | h2
        · exact Or.inl h2
        · rw [List.mem_singleton] at h2
          subst h2
          exact Or.inr (List.mem_cons_self _ _)
    · exact Or.inr (List.mem_cons_of_mem _ h1)

theorem mem_of_mem_dedupByExtId {rows : List Row} {r : Row} (h : r ∈ dedupByExtId rows) :
    r ∈ rows := by
  unfold dedupByExtId at h
  rcases mem_of_mem_dedupFold rows ([], []) r h with h1 | h1
  · cases h1
  · exact h1

theorem val_processOwners_other (pecMap : List (String × String)) (muniCol : Option String)
    (ambiguousPids : List String) (rawData ownersNorm : List Row) (landRow : Row) (k : String)
    (h1 : k ≠ "Email") (h2 : k ≠ "Fiscal Code") (h3 : k ≠ "Main Owner Name")
    (h4 : k ≠ "Main Owner Last Name") (h5 : k ≠ "Number of Owners") (h6 : k ≠ "All Owners")
    (h7 : k ≠ "CP") :
    val (processOwnersForLand pecMap muniCol ambiguousPids rawData ownersNorm landRow) k =
      val landRow k := by
  simp only [processOwnersForLand]
  rw [val_setVal_ne h7, val_setVal_ne h6, val_setVal_ne h5, val_setVal_ne h4, val_setVal_ne h3]
  split
  · split
    · rw [val_setVal_ne h2, val_setVal_ne h1]
    · rw [val_setVal_ne h2]
  · split
    · split
      · rw [val_setVal_ne h1, val_setVal_ne h2]
      · rw [val_setVal_ne h2]
    · rfl

theorem extIdOfMapped_congr {r1 r2 : Row}
    (hp : val r1 "Province" = val r2 "Province")
    (hm : val r1 "Municipality" = val r2 "Municipality")
    (hs : val r1 "Section" = val r2 "Section") (hsh : val r1 "Sheet" = val r2 "Sheet")
    (hpa : val r1 "Parcel" = val r2 "Parcel") : extIdOfMapped r1 = extIdOfMapped r2 := by
  unfold extIdOfMapped
  rw [hp, hm, hs, hsh, hpa]

theorem extIdOfMapped_projCarga1 {b : Row} {pv mv sv cv : String}
    (hp : val b "Province" = some pv) (hm : val b "Municipality" = some mv)
    (hsh : val b "Sheet" = some sv) (hpa : val b "Parcel" = some cv) :
    extIdOfMapped (projCarga1 b) = extIdOfMapped b := by
  have v1 : val (projCarga1 b) "Province" = some (jsOrEmpty (val b "Province")) := rfl
  have v2 : val (projCarga1 b) "Municipality" = some (jsOrEmpty (val b "Municipality")) := rfl
  have v3 : val (projCarga1 b) "Section" = some (jsOrEmpty (val b "Section")) := rfl
  have v4 : val (projCarga1 b) "Sheet" = some (jsOrEmpty (val b "Sheet")) := rfl
  have v5 : val (projCarga1 b) "Parcel" = some (jsOrEmpty (val b "Parcel")) := rfl
  unfold extIdOfMapped
  rw [v1, v2, v3, v4, v5, hp, hm, hsh, hpa]
  unfold generateExternalId
  simp only [jsOrEmpty, jsStr, Option.getD_some]

/-- Counterexample to claim C1 as stated: on the validated datasets
`inputP1`/`resultsC1` the mailing manifest lists a business key whose owner
resolution found zero candidates, so the Contacted output is non-empty while
the Retrieved output is empty — a Contacted record that is in no Retrieved
output. -/
theorem C1_stage_monotonicity_cex :
    validateInputFile inputP1 = ⟨true, []⟩
    ∧ validateResultsFile resultsC1 = ⟨true, []⟩
    ∧ (runProcess inputP1 resultsC1).contacted ≠ []
    ∧ (runProcess inputP1 resultsC1).retrieved = [] :=
  ⟨by decide, by decide, by decide, by decide⟩

/-- Claim C1 (corrected): stage monotonicity holds in the weakened form the
code implements.  A Contacted record whose owner count passes the
Retrieved-stage filter is the identical record in the Retrieved output (so
all owner fields coincide); a Contacted record with zero owner count is drawn
from the resolved parcel set without appearing in Retrieved (see the
counterexample).  Every Retrieved record's canonical identifier appears among
the Scouted records, provided the validated input rows carry their
`provincia` and `comune` values. -/
theorem C1_stage_monotonicity :
    (∀ (inputData resultsData : SheetMap) (row : Row),
      row ∈ (runProcess inputData resultsData).contacted → retrievedPred row = true →
      row ∈ (runProcess inputData resultsData).retrieved)
    ∧ ∀ (inputData resultsData : SheetMap),
        (∀ r0 ∈ baseFilteredOf inputData,
          (val r0 "provincia").isSome = true ∧ (val r0 "comune").isSome = true) →
        ∀ row ∈ (runProcess inputData resultsData).retrieved,
          ∃ s ∈ (runProcess inputData resultsData).scouted,
            extIdOfMapped s = extIdOfMapped row := by
  constructor
  · intro i r row hc hp
    simp only [runProcess] at hc ⊢
    exact List.mem_filter.mpr ⟨(List.mem_filter.mp hc).1, hp⟩
  · intro i r hsome row hrow
    simp only [runProcess] at hrow ⊢
    have hmem : row ∈ retrievedRawOf i r := (List.mem_filter.mp hrow).1
    unfold retrievedRawOf at hmem
    obtain ⟨b, hb, hbeq⟩ := List.mem_map.mp hmem
    refine ⟨projCarga1 b, List.mem_map_of_mem _ hb, ?_⟩
    have hrow_eq : extIdOfMapped row = extIdOfMapped b := by
      rw [← hbeq]
      exact extIdOfMapped_congr
        (val_processOwners_other _ _ _ _ _ _ _ (by decide) (by decide) (by decide) (by decide)
          (by decide) (by decide) (by decide))
        (val_processOwners_other _ _ _ _ _ _ _ (by decide) (by decide) (by decide) (by decide)
          (by decide) (by decide) (by decide))
        (val_processOwners_other _ _ _ _ _ _ _ (by decide) (by decide) (by decide) (by decide)
          (by decide) (by decide) (by decide))
        (val_processOwners_other _ _ _ _ _ _ _ (by decide) (by decide) (by decide) (by decide)
          (by decide) (by decide) (by decide))
        (val_processOwners_other _ _ _ _ _ _ _ (by decide) (by decide) (by decide) (by decide)
          (by decide) (by decide) (by decide))
    have hbm : b ∈ mappedBaseOf i := by
      apply mem_of_mem_dedupByExtId
      unfold dfBaseOf at hb
      exact hb
    obtain ⟨r0, hr0, hr0eq⟩ := List.mem_map.mp hbm
    obtain ⟨hprov, hcom⟩ := hsome r0 hr0
    obtain ⟨pv, hpv⟩ := Option.isSome_iff_exists.mp hprov
    obtain ⟨mv, hmv⟩ := Option.isSome_iff_exists.mp hcom
    have hbp : val b "Province" = some pv := by
      rw [← hr0eq, val_mapBaseRow_Province, hpv]
    have hbmu : val b "Municipality" = some mv := by
      rw [← hr0eq, val_mapBaseRow_Municipality, hmv]
    have hbsh : val b "Sheet" =
        some (String.mk ((jsStr (val r0 "foglio")).data.takeWhile (fun c => c ≠ '.'))) := by
      rw [← hr0eq, val_mapBaseRow_Sheet]
    have hbpa : val b "Parcel" =
        some (String.mk ((jsStr (val r0 "particella")).data.takeWhile (fun c => c ≠ '.'))) := by
      rw [← hr0eq, val_mapBaseRow_Parcel]
    rw [hrow_eq]
    exact extIdOfMapped_projCarga1 hbp hbmu hbsh hbpa

/-- Witness for C1 on the `inputP1`/`resultsC1b` run, whose single record is
Contacted, passes the Retrieved filter, and has its identifier in Scouted. -/
theorem C1_stage_monotonicity_witness :
    (rowRetrievedC1b ∈ (runProcess inputP1 resultsC1b).contacted
      ∧ retrievedPred rowRetrievedC1b = true
      ∧ rowRetrievedC1b ∈ (runProcess inputP1 resultsC1b).retrieved)
    ∧ (∀ r0 ∈ baseFilteredOf inputP1,
        (val r0 "provincia").isSome = true ∧ (val r0 "comune").isSome = true)
    ∧ ∃ s ∈ (runProcess inputP1 resultsC1b).scouted,
        extIdOfMapped s = extIdOfMapped rowRetrievedC1b := by
  have h1 : rowRetrievedC1b ∈ (runProcess inputP1 resultsC1b).contacted := by decide
  have h2 : retrievedPred rowRetrievedC1b = true := by decide
  have h3 : ∀ r0 ∈ baseFilteredOf inputP1,
      (val r0 "provincia").isSome = true ∧ (val r0 "comune").isSome = true := by decide
  have h4 : rowRetrievedC1b ∈ (runProcess inputP1 resultsC1b).retrieved := by decide
  exact ⟨⟨h1, h2, C1_stage_monotonicity.1 inputP1 resultsC1b rowRetrievedC1b h1 h2⟩, h3,
    C1_stage_monotonicity.2 inputP1 resultsC1b h3 rowRetrievedC1b h4⟩

/-! ## Claims C8 and C10 -/

theorem resultsSheetColErrors_nil {d : SheetMap} {sheetName : String} {cols : List String}
    {rows : List Row} (h : getSheet d sheetName = some rows)
    (hc : ∀ c ∈ cols, hasKey (rows.headD []) c = true) :
    resultsSheetColErrors d sheetName cols = [] := by
  unfold resultsSheetColErrors
  rw [h]
  have hmc : cols.filter (fun c => !hasKey (rows.headD []) c) = [] :=
    List.filter_eq_nil_iff.mpr (fun c hcm => by rw [hc c hcm]; decide)
  simp only [hmc]
  rfl

theorem mailingSheetErrors_nil {d : SheetMap} {rows : List Row}
    (h : getSheet d "Final_Mailing_By_Parcel" = some rows)
    (hPid : ((rowKeys (rows.headD [])).map toLowerS).any
      (fun c => c == "parcel_id" || c == "elenco_parcel_id") = true)
    (hName : ((rowKeys (rows.headD [])).map toLowerS).any
      (fun c => c == "full_name" || c == "destinatario" || c == "nominativo") = true)
    (hCf : ((rowKeys (rows.headD [])).map toLowerS).any
      (fun c => c == "cf" || c == "fiscal_code" || c == "codice_fiscale") = true) :
    mailingSheetErrors d = [] := by
  unfold mailingSheetErrors
  rw [h]
  simp only [hPid, hName, hCf]
  rfl

theorem validateResults_valid_of_shape {d : SheetMap} {rowsA rowsO rowsC rowsM : List Row}
    (hA : getSheet d "All_Raw_Data" = some rowsA)
    (hO : getSheet d "Owners_Normalized" = some rowsO)
    (hC : getSheet d "All_Companies_Found" = some rowsC)
    (hM : getSheet d "Final_Mailing_By_Parcel" = some rowsM)
    (hcA : ∀ c ∈ ["Parcel_ID", "cf_owner", "denominazione_owner", "nome", "cognome"],
      hasKey (rowsA.headD []) c = true)
    (hcO : ∀ c ∈ ["Parcel_ID", "owner_name", "owner_cf", "quota"],
      hasKey (rowsO.headD []) c = true)
    (hcC : ∀ c ∈ ["cf", "pec_email"], hasKey (rowsC.headD []) c = true)
    (hPid : ((rowKeys (rowsM.headD [])).map toLowerS).any
      (fun c => c == "parcel_id" || c == "elenco_parcel_id") = true)
    (hName : ((rowKeys (rowsM.headD [])).map toLowerS).any
      (fun c => c == "full_name" || c == "destinatario" || c == "nominativo") = true)
    (hCf : ((rowKeys (rowsM.headD [])).map toLowerS).any
      (fun c => c == "cf" || c == "fiscal_code" || c == "codice_fiscale") = true) :
    validateResultsFile d = ⟨true, []⟩ := by
  have hmiss : (["All_Raw_Data", "Owners_Normalized", "All_Companies_Found",
      "Final_Mailing_By_Parcel"] : List String).filter (fun s => !(getSheet d s).isSome) = [] := by
    apply List.filter_eq_nil_iff.mpr
    intro s hs
    fin_cases hs <;> simp [hA, hO, hC, hM]
  unfold validateResultsFile
  simp only [hmiss, resultsSheetColErrors_nil hA hcA, resultsSheetColErrors_nil hO hcO,
    resultsSheetColErrors_nil hC hcC, mailingSheetErrors_nil hM hPid hName hCf]
  rfl

/-- Counterexample to claim C8 as stated: a Results bundle whose four sheets
are present, whose non-empty sheets have the correct columns, but whose
mailing-manifest sheet has zero rows, is rejected by `validateResultsFile`
(the empty sheet is treated as missing all its columns). -/
theorem C8_empty_results_cex :
    (getSheet resultsC8empty "All_Raw_Data").isSome = true
    ∧ (getSheet resultsC8empty "Owners_Normalized").isSome = true
    ∧ (getSheet resultsC8empty "All_Companies_Found").isSome = true
    ∧ getSheet resultsC8empty "Final_Mailing_By_Parcel" = some []
    ∧ (validateResultsFile resultsC8empty).isValid = false
    ∧ (validateResultsFile resultsC8empty).errors ≠ [] :=
  ⟨by decide, by decide, by decide, by decide, by decide, by decide⟩

/-- Claim C8 (corrected): `validateResultsFile` accepts a bundle whose four
sheets are all present and non-empty with the required columns on their first
rows; but an empty sheet is not tolerated — column checks run against an
empty first row, so a bundle whose mailing-manifest sheet is present and
empty is reported invalid. -/
theorem C8_empty_results :
    (∀ (d : SheetMap) (rowsA rowsO rowsC rowsM : List Row),
      getSheet d "All_Raw_Data" = some rowsA →
      getSheet d "Owners_Normalized" = some rowsO →
      getSheet d "All_Companies_Found" = some rowsC →
      getSheet d "Final_Mailing_By_Parcel" = some rowsM →
      (∀ c ∈ ["Parcel_ID", "cf_owner", "denominazione_owner", "nome", "cognome"],
        hasKey (rowsA.headD []) c = true) →
      (∀ c ∈ ["Parcel_ID", "owner_name", "owner_cf", "quota"],
        hasKey (rowsO.headD []) c = true) →
      (∀ c ∈ ["cf", "pec_email"], hasKey (rowsC.headD []) c = true) →
      ((rowKeys (rowsM.headD [])).map toLowerS).any
        (fun c => c == "parcel_id" || c == "elenco_parcel_id") = true →
      ((rowKeys (rowsM.headD [])).map toLowerS).any
        (fun c => c == "full_name" || c == "destinatario" || c == "nominativo") = true →
      ((rowKeys (rowsM.headD [])).map toLowerS).any
        (fun c => c == "cf" || c == "fiscal_code" || c == "codice_fiscale") = true →
      validateResultsFile d = ⟨true, []⟩)
    ∧ ∀ d : SheetMap, getSheet d "Final_Mailing_By_Parcel" = some [] →
        (validateResultsFile d).isValid = false := by
  constructor
  · intro d rowsA rowsO rowsC rowsM hA hO hC hM hcA hcO hcC hPid hName hCf
    exact validateResults_valid_of_shape hA hO hC hM hcA hcO hcC hPid hName hCf
  · intro d hM
    have h5 : mailingSheetErrors d =
        ["Sheet \x27Final_Mailing_By_Parcel\x27 is missing required columns (or aliases): Parcel_ID, Full_Name, cf. Found: "] := by
      unfold mailingSheetErrors
      rw [hM]
      rfl
    unfold validateResultsFile
    simp only [h5]
    simp [List.length_append]

/-- Witness for C8: the all-non-empty bundle `resultsC1` validates, and the
empty-mailing-sheet bundle `resultsC8empty` is rejected. -/
theorem C8_empty_results_witness :
    (getSheet resultsC1 "All_Raw_Data" = some [rawOther]
      ∧ validateResultsFile resultsC1 = ⟨true, []⟩)
    ∧ getSheet resultsC8empty "Final_Mailing_By_Parcel" = some []
    ∧ (validateResultsFile resultsC8empty).isValid = false := by
  have hA : getSheet resultsC1 "All_Raw_Data" = some [rawOther] := by decide
  have hO : getSheet resultsC1 "Owners_Normalized" = some [normOther] := by decide
  have hC : getSheet resultsC1 "All_Companies_Found" = some [compX1] := by decide
  have hM : getSheet resultsC1 "Final_Mailing_By_Parcel" = some [mailP1] := by decide
  have hM8 : getSheet resultsC8empty "Final_Mailing_By_Parcel" = some [] := by decide
  exact ⟨⟨hA, C8_empty_results.1 resultsC1 [rawOther] [normOther] [compX1] [mailP1] hA hO hC hM
      (by decide) (by decide) (by decide) (by decide) (by decide) (by decide)⟩,
    hM8, C8_empty_results.2 resultsC8empty hM8⟩

/-- Claim C10 (confirmed): the mailing-manifest alias gap.  A bundle whose
mailing sheet carries the business key only under the `Elenco_Parcel_ID`
alias (no `Parcel_ID` property on any row) passes validation, yet
`runProcess` builds its mailing-key set by reading the exact `Parcel_ID`
property, so the set is empty and the Contacted output is empty for every
input dataset. -/
theorem C10_mailing_alias_gap :
    ∀ (inputData d : SheetMap) (rowsA rowsO rowsC rowsM : List Row),
      getSheet d "All_Raw_Data" = some rowsA →
      getSheet d "Owners_Normalized" = some rowsO →
      getSheet d "All_Companies_Found" = some rowsC →
      getSheet d "Final_Mailing_By_Parcel" = some rowsM →
      (∀ c ∈ ["Parcel_ID", "cf_owner", "denominazione_owner", "nome", "cognome"],
        hasKey (rowsA.headD []) c = true) →
      (∀ c ∈ ["Parcel_ID", "owner_name", "owner_cf", "quota"],
        hasKey (rowsO.headD []) c = true) →
      (∀ c ∈ ["cf", "pec_email"], hasKey (rowsC.headD []) c = true) →
      hasKey (rowsM.headD []) "Elenco_Parcel_ID" = true →
      ((rowKeys (rowsM.headD [])).map toLowerS).any
        (fun c => c == "full_name" || c == "destinatario" || c == "nominativo") = true →
      ((rowKeys (rowsM.headD [])).map toLowerS).any
        (fun c => c == "cf" || c == "fiscal_code" || c == "codice_fiscale") = true →
      (∀ r ∈ rowsM, val r "Parcel_ID" = none) →
      validateResultsFile d = ⟨true, []⟩ ∧ (runProcess inputData d).contacted = [] := by
  intro i d rowsA rowsO rowsC rowsM hA hO hC hM hcA hcO hcC hElenco hName hCf hNoPid
  constructor
  · have hPid : ((rowKeys (rowsM.headD [])).map toLowerS).any
        (fun c => c == "parcel_id" || c == "elenco_parcel_id") = true := by
      apply List.any_eq_true.mpr
      exact ⟨toLowerS "Elenco_Parcel_ID",
        List.mem_map_of_mem _ (mem_rowKeys_of_hasKey hElenco), by decide⟩
    exact validateResults_valid_of_shape hA hO hC hM hcA hcO hcC hPid hName hCf
  · have hmp : mailingPidsOf d = [] := by
      unfold mailingPidsOf
      have hrows : getSheetD d "Final_Mailing_By_Parcel" = rowsM := by
        unfold getSheetD
        rw [hM]
        rfl
      rw [hrows]
      have hfold : ∀ (l : List Row) (acc : List String), (∀ r ∈ l, val r "Parcel_ID" = none) →
          l.foldl (fun acc r =>
            if truthy (val r "Parcel_ID") then acc ++ [jsStr (val r "Parcel_ID")] else acc)
            acc = acc := by
        intro l
        induction l with
        | nil => intro acc _; rfl
        | cons r t ih =>
          intro acc hall
          rw [List.foldl_cons]
          have hz : truthy (val r "Parcel_ID") = false := by
            rw [hall r (by simp)]
            rfl
          rw [hz]
          simp only [Bool.false_eq_true, if_false]
          exact ih acc (fun x hx => hall x (List.mem_cons_of_mem _ hx))
      exact hfold rowsM [] hNoPid
    simp only [runProcess]
    apply List.filter_eq_nil_iff.mpr
    intro row hrow
    unfold contactedPred
    rw [hmp]
    simp

/-- Witness for C10: the `resultsC10` bundle (mailing key only under
`Elenco_Parcel_ID`) validates and produces an empty Contacted output on
`inputP1`, even though owner resolution succeeds for the input parcel. -/
theorem C10_mailing_alias_gap_witness :
    (getSheet resultsC10 "Final_Mailing_By_Parcel" = some [mailElenco]
      ∧ hasKey mailElenco "Elenco_Parcel_ID" = true
      ∧ (∀ r ∈ [mailElenco], val r "Parcel_ID" = none))
    ∧ validateResultsFile resultsC10 = ⟨true, []⟩
    ∧ (runProcess inputP1 resultsC10).contacted = [] := by
  have hA : getSheet resultsC10 "All_Raw_Data" = some [rawP1] := by decide
  have hO : getSheet resultsC10 "Owners_Normalized" = some [normP1] := by decide
  have hC : getSheet resultsC10 "All_Companies_Found" = some [compX1] := by decide
  have hM : getSheet resultsC10 "Final_Mailing_By_Parcel" = some [mailElenco] := by decide
  have hNoPid : ∀ r ∈ [mailElenco], val r "Parcel_ID" = none := by decide
  have h := C10_mailing_alias_gap inputP1 resultsC10 [rawP1] [normP1] [compX1] [mailElenco]
    hA hO hC hM (by decide) (by decide) (by decide) (by decide) (by decide) (by decide) hNoPid
  exact ⟨⟨hM, by decide, hNoPid⟩, h.1, h.2⟩

end LandTool
